import Mathlib

/-!
Verification of the reminders indexing and search subsystem.

This file gives a shallow embedding of the core of the repository:

* `src/indexer.ts` — source scanning (`findRemindersDatabases`), ingestion
  with cross-file deduplication (`queryAllDatabases`), the full rebuild
  (`buildIndex`), the incremental update (`updateIndex`), and the staleness
  check (`indexNeedsRebuild` / `ensureIndex`);
* `src/searcher.ts` — the query router (`search`) with its three paths
  (`searchByList`, `searchByText`, `getAllReminders`) and the browse
  operations (`getFlaggedReminders`).

Modelling conventions:

* SQLite rows become Lean structures; `NULL`-able columns are `Option`.
* Timestamps are `Int` (the source passes them through `Math.floor`, so the
  embedding works with integral values throughout; `appleToUnix` becomes a
  plain offset addition).
* JavaScript truthiness tests (`if (!r.title)`, `r.listName || ...`,
  `stats?.lastIndexedRowid`) are modelled by explicit falsy checks: `none`,
  the empty string and the number zero are falsy.
* The SQL clause `ORDER BY ... LIMIT n` is modelled by a stable sort
  followed by `sqlLimit`; SQLite treats a negative `LIMIT` as "no limit",
  which `sqlLimit` reproduces.  JavaScript `Array.slice(0, end)` with a
  possibly negative `end` is modelled by `jsSlice`.
* The SQL predicate `LOWER(list_name) LIKE ?` with the bound pattern
  `%q%` is modelled by `sqlLike`, a full SQLite `LIKE` matcher in which
  `%` matches any character sequence and `_` exactly one character (the
  source uses no `ESCAPE` clause); JavaScript
  `listName.toLowerCase().includes(q)` is modelled as substring
  containment (`strContains`).  Both act on lowercased strings, which
  matches the ASCII case-insensitivity of SQLite `LIKE`.
* The MiniSearch engine is opaque: its relevance-ranked hit list for a
  given query is a parameter (`ranked`), and the `filter` option passed to
  `miniSearch.search` is applied to that list, exactly as the engine applies
  it to each candidate result.  Theorems quantify over every ranked list.
* File I/O failure handling that the source wraps in try/catch around a
  single file (copy/open failures, which silently skip that file) is not
  modelled; a source database is represented by its row table.
-/

namespace Reminders

/-- One row of the `ZREMCDREMINDER` table joined with `ZREMCDBASELIST`
(the `JoinedReminder` shape of `types.ts`); `pk` is the source `Z_PK`. -/
structure RawRow where
  pk : Nat
  title : Option String
  notes : Option String
  completed : Int
  flagged : Int
  priority : Int
  dueDate : Option Int
  creationDate : Int
  lastModifiedDate : Option Int
  completionDate : Option Int
  listId : Int
  listName : Option String
  markedForDeletion : Int
deriving DecidableEq, Repr

/-- The `IndexedReminder` record of `types.ts`: the canonical form stored in
both the structured store and the fuzzy store. -/
structure IndexedReminder where
  id : Nat
  title : String
  notes : String
  listName : String
  listId : Int
  completed : Bool
  flagged : Bool
  priority : Int
  dueDate : Option Int
  creationDate : Int
  completionDate : Option Int
deriving DecidableEq, Repr

/-- The `IndexStats` record of `types.ts` persisted to `stats.json`.  Dates
are kept as Unix seconds; `oldestReminder` is `none` while no titled record
has been seen (the source initialises the running minimum to `Infinity`).
`lastIndexedRowid = 0` models an absent or zero high-water-mark (both are
falsy in the `stats?.lastIndexedRowid` check). -/
structure IndexStats where
  totalReminders : Nat
  totalLists : Nat
  completedReminders : Nat
  pendingReminders : Nat
  indexedAt : Int
  oldestReminder : Option Int
  newestReminder : Int
  lastIndexedRowid : Nat
deriving DecidableEq, Repr

/-- The two persisted indexes: the `reminders` table of `index.db` and the
document set of the serialized MiniSearch index `fuzzy.json`. -/
structure Store where
  remindersTable : List IndexedReminder
  fuzzyDocs : List IndexedReminder
deriving DecidableEq, Repr

/-- JavaScript truthiness of an optional number: `null`/`undefined` and `0`
are falsy. -/
def jsTruthyInt : Option Int → Bool
  | none => false
  | some n => n != 0

/-- JavaScript truthiness of an optional string: `null`/`undefined` and the
empty string are falsy. -/
def jsTruthyStr : Option String → Bool
  | none => false
  | some s => s != ""

/-- String interpolation of a nullable string, as JavaScript template
literals render it: `null` becomes the text `"null"`. -/
def jsShowStr : Option String → String
  | none => "null"
  | some s => s

/-- Seconds between the Unix epoch and the Apple Core Data epoch
(`APPLE_EPOCH_OFFSET` in `types.ts`). -/
def APPLE_EPOCH_OFFSET : Int := 978307200

/-- The `appleToUnix` conversion of `types.ts`; `Math.floor` is the identity
on the integral timestamps of this embedding. -/
def appleToUnix (appleDate : Int) : Int := appleDate + APPLE_EPOCH_OFFSET

/-- The dedup key built in `queryAllDatabases`:
the template literal `title|listName|creationDate`. -/
def dedupKey (r : RawRow) : String :=
  jsShowStr r.title ++ "|" ++ jsShowStr r.listName ++ "|" ++ toString r.creationDate

/-- Stable insertion used by `sqlOrderBy`. -/
def stableInsert (le : α → α → Bool) (x : α) : List α → List α
  | [] => [x]
  | y :: ys => if le x y then x :: y :: ys else y :: stableInsert le x ys

/-- A stable sort by a total comparator, modelling a SQL `ORDER BY`
clause.  For the total preorders used here every stable sort produces the
same list, so the choice of algorithm is immaterial. -/
def sqlOrderBy (le : α → α → Bool) : List α → List α
  | [] => []
  | x :: xs => stableInsert le x (sqlOrderBy le xs)

/-- Rows returned by the per-file SQL query of `queryAllDatabases` and
`updateIndex`: rows not marked for deletion, ordered by source creation
timestamp ascending. -/
def sqlSourceRows (file : List RawRow) : List RawRow :=
  sqlOrderBy (fun a b => decide (a.creationDate ≤ b.creationDate))
    (file.filter (fun r => r.markedForDeletion == 0))

/-- Accumulator of the dedup-and-renumber loop of `queryAllDatabases`:
the `seenTitles` key set, the `globalIdCounter`, and the `allReminders`
output paired with its assigned global id. -/
structure DedupState where
  seen : List String
  nextId : Nat
  out : List (Nat × RawRow)
deriving Repr

/-- One iteration of the dedup loop: a row whose key was already seen is
dropped; otherwise it is kept, assigned the next global id, and its key is
recorded. -/
def dedupStep (st : DedupState) (r : RawRow) : DedupState :=
  let k := dedupKey r
  if st.seen.contains k then st
  else { seen := k :: st.seen, nextId := st.nextId + 1, out := st.out ++ [(st.nextId, r)] }

/-- Error message thrown by `queryAllDatabases` and `updateIndex` when no
source database file is found. -/
def sourceNotFoundMsg : String :=
  "Reminders databases not found at SOURCE_DIR. Make sure you have Full Disk Access enabled for your terminal."

/-- Error raised by `readdirSync` on an existing directory the process may
not read; the source does not catch it. -/
def eaccesMsg : String := "EACCES: permission denied, scandir SOURCE_DIR"

/-- The `queryAllDatabases` function of `indexer.ts` on the list of readable
source databases (each given by its row table): fails when the list is
empty, otherwise scans each file in order, dedups across files by
`dedupKey`, and assigns sequential global ids starting at 1. -/
def queryAllDatabasesPure (files : List (List RawRow)) : Except String (List (Nat × RawRow)) :=
  if files.isEmpty then .error sourceNotFoundMsg
  else .ok (files.foldl (fun st file => (sqlSourceRows file).foldl dedupStep st)
      { seen := [], nextId := 1, out := [] }).out

/-- Canonicalization performed by the indexing loops of `buildIndex` and
`updateIndex` (they are textually identical): field defaulting by JavaScript
truthiness and Apple-to-Unix timestamp conversion.  `now` stands for
`Math.floor(Date.now() / 1000)`. -/
def toIndexed (now : Int) (id : Nat) (r : RawRow) : IndexedReminder :=
  { id := id
    title := r.title.getD ""
    notes := r.notes.getD ""
    listName := if jsTruthyStr r.listName then r.listName.getD "" else "Reminders"
    listId := r.listId
    completed := r.completed == 1
    flagged := r.flagged == 1
    priority := r.priority
    dueDate := if jsTruthyInt r.dueDate then some (appleToUnix (r.dueDate.getD 0)) else none
    creationDate := if r.creationDate != 0 then appleToUnix r.creationDate else now
    completionDate :=
      if jsTruthyInt r.completionDate then some (appleToUnix (r.completionDate.getD 0)) else none }

/-- Accumulator of the main loop of `buildIndex`: running oldest/newest
creation dates (`none` models the initial `Infinity`), the
completed/pending counters and the list of indexed reminders. -/
structure BuildAcc where
  oldestDate : Option Int
  newestDate : Int
  completedCount : Nat
  pendingCount : Nat
  indexed : List IndexedReminder
deriving Repr

/-- One iteration of the `buildIndex` loop over the id-assigned rows from
`queryAllDatabases`: rows with a falsy title are skipped entirely;
otherwise the row is canonicalized, counted, and appended. -/
def buildStep (now : Int) (acc : BuildAcc) (ir : Nat × RawRow) : BuildAcc :=
  let r := ir.2
  if !jsTruthyStr r.title then acc
  else
    let x := toIndexed now ir.1 r
    { oldestDate := some ((acc.oldestDate.map (fun o => min o x.creationDate)).getD x.creationDate)
      newestDate := max acc.newestDate x.creationDate
      completedCount := acc.completedCount + (if x.completed then 1 else 0)
      pendingCount := acc.pendingCount + (if x.completed then 0 else 1)
      indexed := acc.indexed ++ [x] }

/-- The indexing phase of `buildIndex` on the ingested rows: the main loop
followed by the unique-list count, the high-water-mark scan and the stats
record.  Both stores receive the same canonical record list. -/
def buildIndexBody (now : Int) (rows : List (Nat × RawRow)) : Store × IndexStats :=
  let acc := rows.foldl (buildStep now)
    { oldestDate := none, newestDate := 0, completedCount := 0, pendingCount := 0, indexed := [] }
  let uniqueLists := (acc.indexed.map (·.listId)).eraseDups
  let lastIndexedRowid := acc.indexed.foldl (fun m r => if r.id > m then r.id else m) 0
  let stats : IndexStats :=
    { totalReminders := acc.indexed.length
      totalLists := uniqueLists.length
      completedReminders := acc.completedCount
      pendingReminders := acc.pendingCount
      indexedAt := now
      oldestReminder := acc.oldestDate
      newestReminder := acc.newestDate
      lastIndexedRowid := lastIndexedRowid }
  ({ remindersTable := acc.indexed, fuzzyDocs := acc.indexed }, stats)

/-- The `buildIndex` function of `indexer.ts`: full rebuild.  Both stores are
recreated from the canonical record list; the stats record is recomputed
from scratch (the previous stats file is overwritten without being read). -/
def buildIndexPure (now : Int) (files : List (List RawRow)) :
    Except String (Store × IndexStats) :=
  match queryAllDatabasesPure files with
  | .error e => .error e
  | .ok rows => .ok (buildIndexBody now rows)

/-- Rows returned by the per-file delta query of `updateIndex`: not marked
for deletion and with source `Z_PK` strictly above the stored
high-water-mark, ordered by creation timestamp. -/
def deltaRows (hwm : Nat) (file : List RawRow) : List RawRow :=
  sqlOrderBy (fun a b => decide (a.creationDate ≤ b.creationDate))
    (file.filter (fun r => r.markedForDeletion == 0 && decide (hwm < r.pk)))

/-- Accumulator of the `updateIndex` loop: newest creation date and
high-water-mark seeded from the existing stats, delta counters, and the
newly indexed reminders. -/
structure UpdateAcc where
  newestDate : Int
  lastRowid : Nat
  newCompleted : Nat
  newPending : Nat
  indexed : List IndexedReminder
deriving Repr

/-- One iteration of the `updateIndex` loop: untitled rows are skipped;
kept rows advance the newest date and the high-water-mark and are
canonicalized keeping their source `Z_PK` as id. -/
def updateStep (now : Int) (acc : UpdateAcc) (r : RawRow) : UpdateAcc :=
  if !jsTruthyStr r.title then acc
  else
    let x := toIndexed now r.pk r
    { newestDate := max acc.newestDate x.creationDate
      lastRowid := if r.pk > acc.lastRowid then r.pk else acc.lastRowid
      newCompleted := acc.newCompleted + (if x.completed then 1 else 0)
      newPending := acc.newPending + (if x.completed then 0 else 1)
      indexed := acc.indexed ++ [x] }

/-- The `updateIndex` function of `indexer.ts`: incremental update.  Returns
`none` (the source returns `null`) when no stats record with a truthy
high-water-mark exists; fails when no source database is found; with an
empty delta only the stats timestamp is refreshed; otherwise the delta rows
are appended to both stores without any dedup pass, keeping their source
ids, and the stats are extended. -/
def updateIndexCore (now : Int) (st : IndexStats) (store : Store)
    (files : List (List RawRow)) : Except String (Option (Store × IndexStats)) :=
  if st.lastIndexedRowid == 0 then .ok none
  else if files.isEmpty then .error sourceNotFoundMsg
  else
    let newReminders := files.flatMap (deltaRows st.lastIndexedRowid)
    if newReminders.isEmpty then
      .ok (some (store, { st with indexedAt := now }))
    else
      let acc := newReminders.foldl (updateStep now)
        { newestDate := st.newestReminder, lastRowid := st.lastIndexedRowid
          newCompleted := 0, newPending := 0, indexed := [] }
      let stats : IndexStats :=
        { totalReminders := st.totalReminders + acc.indexed.length
          totalLists := st.totalLists
          completedReminders := st.completedReminders + acc.newCompleted
          pendingReminders := st.pendingReminders + acc.newPending
          indexedAt := now
          oldestReminder := st.oldestReminder
          newestReminder := acc.newestDate
          lastIndexedRowid := acc.lastRowid }
      .ok (some
        ({ remindersTable := store.remindersTable ++ acc.indexed
           fuzzyDocs := store.fuzzyDocs ++ acc.indexed }, stats))

/-- The guard of `updateIndex` on the stats file: a missing record (like a
zero high-water-mark inside `updateIndexCore`) makes the update report
not-applicable. -/
def updateIndexPure (now : Int) (statsFile : Option IndexStats) (store : Store)
    (files : List (List RawRow)) : Except String (Option (Store × IndexStats)) :=
  match statsFile with
  | none => .ok none
  | some st => updateIndexCore now st store files

/-- Extract the success value of an `Except`, for stating concrete
evaluation facts. -/
def okOf : Except String α → Option α
  | .ok a => some a
  | .error _ => none

/-- Extract the error message of an `Except`. -/
def errOf : Except String α → Option String
  | .ok _ => none
  | .error e => some e

/-- Decidable equality of `Except`, used to evaluate the embedding at
concrete states in witnesses and counterexamples. -/
instance instDecEqExcept [DecidableEq ε] [DecidableEq α] : DecidableEq (Except ε α) := fun x y =>
  match x, y with
  | .ok a, .ok b =>
    if h : a = b then .isTrue (by rw [h])
    else .isFalse (fun hc => by cases hc; exact h rfl)
  | .error a, .error b =>
    if h : a = b then .isTrue (by rw [h])
    else .isFalse (fun hc => by cases hc; exact h rfl)
  | .ok _, .error _ => .isFalse (fun hc => Except.noConfusion hc)
  | .error _, .ok _ => .isFalse (fun hc => Except.noConfusion hc)

/-! ## Filesystem state and the staleness detector -/

/-- One `Data-*.sqlite` file of the source directory: its modification time
and its row table. -/
structure SourceDb where
  mtime : Int
  rows : List RawRow
deriving DecidableEq, Repr

/-- The filesystem state the indexer reads and writes: source directory,
index database, fuzzy index file, stats file, and the store contents. -/
structure Fs where
  srcDirExists : Bool
  srcDirReadable : Bool
  srcDbs : List SourceDb
  indexDbExists : Bool
  indexDbMtime : Int
  fuzzyExists : Bool
  statsFile : Option IndexStats
  store : Store
deriving DecidableEq, Repr

/-- The `indexExists` check of `indexer.ts`: both persisted index files
present. -/
def indexExistsFs (fs : Fs) : Bool := fs.indexDbExists && fs.fuzzyExists

/-- The `findRemindersDatabases` function: an absent source directory yields
the empty list; an existing directory the process cannot read makes
`readdirSync` throw, and the source does not catch it. -/
def findRemindersDatabases (fs : Fs) : Except String (List SourceDb) :=
  if !fs.srcDirExists then .ok []
  else if !fs.srcDirReadable then .error eaccesMsg
  else .ok fs.srcDbs

/-- The `getSourceModTime` function: newest source database mtime, `0` when
there is none. -/
def getSourceModTime (dbs : List SourceDb) : Int :=
  dbs.foldl (fun newest db => if db.mtime > newest then db.mtime else newest) 0

/-- The `indexNeedsRebuild` check: a missing index always needs a rebuild;
with no source database nothing can be rebuilt; otherwise compare the
newest source mtime against the index database mtime. -/
def indexNeedsRebuild (fs : Fs) : Except String Bool :=
  if !indexExistsFs fs then .ok true
  else match findRemindersDatabases fs with
  | .error e => .error e
  | .ok dbs =>
    if dbs.isEmpty then .ok false
    else .ok (decide (getSourceModTime dbs > fs.indexDbMtime))

/-- The freshness verdict returned by `ensureIndex`. -/
inductive RebuildKind where
  | noop
  | incremental
  | full
deriving DecidableEq, Repr

/-- The `queryAllDatabases` call as it runs against the filesystem: list the
source databases, then ingest them. -/
def queryAllDatabasesFs (fs : Fs) : Except String (List (Nat × RawRow)) :=
  match findRemindersDatabases fs with
  | .error e => .error e
  | .ok dbs => queryAllDatabasesPure (dbs.map (·.rows))

/-- The `buildIndex` call against the filesystem: full rebuild replacing the
store, rewriting both index files and the stats file. -/
def buildIndexFs (now : Int) (fs : Fs) : Except String (Fs × IndexStats) :=
  match findRemindersDatabases fs with
  | .error e => .error e
  | .ok dbs =>
    match buildIndexPure now (dbs.map (·.rows)) with
    | .error e => .error e
    | .ok (store, stats) =>
      let fs' := { fs with
        store := store
        statsFile := some stats
        indexDbExists := true
        fuzzyExists := true
        indexDbMtime := now }
      .ok (fs', stats)

/-- The `updateIndex` call against the filesystem. -/
def updateIndexFs (now : Int) (fs : Fs) : Except String (Option (Fs × IndexStats)) :=
  match findRemindersDatabases fs with
  | .error e => .error e
  | .ok dbs =>
    match updateIndexPure now fs.statsFile fs.store (dbs.map (·.rows)) with
    | .error e => .error e
    | .ok none => .ok none
    | .ok (some (store, stats)) =>
      let fs' := { fs with
        store := store
        statsFile := some stats
        indexDbMtime := now }
      .ok (some (fs', stats))

/-- The `ensureIndex` function of `indexer.ts`: the `noop` verdict when the
index is fresh; otherwise the incremental path is tried when a stats record
with a truthy high-water-mark and both index files exist, with a fall back
to a full rebuild when it is not applicable. -/
def ensureIndexFs (now : Int) (fs : Fs) : Except String (RebuildKind × Fs) :=
  match indexNeedsRebuild fs with
  | .error e => .error e
  | .ok needs =>
    if !needs then .ok (.noop, fs)
    else
      let canIncremental :=
        (match fs.statsFile with
         | some st => st.lastIndexedRowid != 0
         | none => false) && indexExistsFs fs
      if canIncremental then
        match updateIndexFs now fs with
        | .error e => .error e
        | .ok (some (fs', _)) => .ok (.incremental, fs')
        | .ok none =>
          match buildIndexFs now fs with
          | .error e => .error e
          | .ok (fs', _) => .ok (.full, fs')
      else
        match buildIndexFs now fs with
        | .error e => .error e
        | .ok (fs', _) => .ok (.full, fs')

/-! ## Searcher -/

/-- Lowercasing as both `LOWER` in SQLite and `toLowerCase` in JavaScript
behave on the ASCII strings of this model. -/
def lowerStr (s : String) : String := String.mk (s.data.map Char.toLower)

/-- Helper of `strContains`: character-list prefix test. -/
def strPrefixAux : List Char → List Char → Bool
  | [], _ => true
  | _ :: _, [] => false
  | a :: as, b :: bs => a == b && strPrefixAux as bs

/-- Helper of `strContains`: does `needle` occur inside `hay`. -/
def strContainsAux (needle : List Char) : List Char → Bool
  | [] => needle.isEmpty
  | c :: cs => strPrefixAux needle (c :: cs) || strContainsAux needle cs

/-- Substring containment: models JavaScript `hay.includes(pat)`. -/
def strContains (hay pat : String) : Bool := strContainsAux pat.data hay.data

/-- Helper of `likeMatch`: try the rest of the pattern at every suffix of
the text — the semantics of the `%` wildcard. -/
def likeTail (f : List Char → Bool) : List Char → Bool
  | [] => f []
  | c :: cs => f (c :: cs) || likeTail f cs

/-- SQLite `LIKE` on character lists: `%` matches any sequence, `_`
matches exactly one character, and every other pattern character matches
itself.  The source never supplies an `ESCAPE` clause. -/
def likeMatch : List Char → List Char → Bool
  | [] => fun s => s.isEmpty
  | p :: ps => fun s =>
    if p == '%' then likeTail (likeMatch ps) s
    else
      match s with
      | [] => false
      | c :: cs => (p == '_' || p == c) && likeMatch ps cs

/-- The SQLite `LIKE` predicate on strings, pattern first. -/
def sqlLike (pattern text : String) : Bool := likeMatch pattern.data text.data

/-- Does a string avoid both `LIKE` wildcard characters. -/
def noWildcards (s : String) : Bool := s.data.all (fun c => !(c == '%') && !(c == '_'))

/-- SQLite `LIMIT n`: a negative bound means no limit at all. -/
def sqlLimit (n : Int) (xs : List α) : List α :=
  if n < 0 then xs else xs.take n.toNat

/-- JavaScript `xs.slice(0, e)`: a negative end counts from the end of the
array, clamped at zero. -/
def jsSlice (xs : List α) (e : Int) : List α :=
  if e < 0 then xs.take (xs.length - e.natAbs) else xs.take e.toNat

/-- Comparator of the SQL clause
`ORDER BY due_date ASC NULLS LAST, creation_date DESC`. -/
def dueOrderLe (a b : IndexedReminder) : Bool :=
  match a.dueDate, b.dueDate with
  | none, none => decide (b.creationDate ≤ a.creationDate)
  | none, some _ => false
  | some _, none => true
  | some x, some y => decide (x < y) || (x == y && decide (b.creationDate ≤ a.creationDate))

/-- A search result: reminder, relevance score and matched terms (the
`SearchResult` shape of `types.ts`).  The score scale of the fuzzy engine is
opaque; structured-store paths use the constant score 1. -/
structure SearchResult where
  reminder : IndexedReminder
  score : Int
  matchedTerms : List String
deriving DecidableEq, Repr

/-- One ranked hit of the MiniSearch engine, carrying the stored fields. -/
structure SearchHit where
  doc : IndexedReminder
  score : Int
  terms : List String
deriving DecidableEq, Repr

/-- The query specification (the `SearchOptions` shape of `types.ts`). -/
structure SearchOptions where
  query : Option String
  list : Option String
  completed : Option Bool
  flagged : Option Bool
  limit : Int
deriving DecidableEq, Repr

/-- The SQL completion filter fragment shared by `searchByList` and
`getAllReminders`: absent filter accepts everything. -/
def completedPred (completed : Option Bool) (r : IndexedReminder) : Bool :=
  match completed with
  | some c => r.completed == c
  | none => true

/-- The `searchByList` path of `searcher.ts`: structured-store query whose
list filter is the SQL predicate `LOWER(list_name) LIKE ?` bound to the
pattern `%listLower%`, with an optional completion filter; note that the
flagged filter is not part of this query. -/
def searchByList (table : List IndexedReminder) (list : String) (completed : Option Bool)
    (limit : Int) : List SearchResult :=
  let listLower := lowerStr list
  let rows := sqlLimit limit
    (sqlOrderBy dueOrderLe (table.filter (fun r =>
      sqlLike ("%" ++ listLower ++ "%") (lowerStr r.listName)
        && completedPred completed r)))
  rows.map (fun r => { reminder := r, score := 1, matchedTerms := [] })

/-- The `filter` closure handed to `miniSearch.search` inside
`searchByText`: list containment when the lowered list filter is truthy,
completion equality when requested, and flagged only when `flagged` is
literally `true`. -/
def textFilter (listLower : Option String) (completed : Option Bool) (flagged : Option Bool)
    (r : IndexedReminder) : Bool :=
  (if jsTruthyStr listLower then strContains (lowerStr r.listName) (listLower.getD "") else true)
  && (match completed with
      | some c => r.completed == c
      | none => true)
  && (match flagged with
      | some true => r.flagged == true
      | _ => true)

/-- The `searchByText` path of `searcher.ts`.  `ranked` is the
relevance-ranked hit list of the MiniSearch engine for the query over the
fuzzy store; the engine applies the filter closure to each candidate, the
code then slices to `searchLimit` (an over-fetch multiplier of 20 when any
filter is present), maps hits to results, and truncates to `limit`. -/
def searchByText (ranked : List SearchHit) (list : Option String) (completed : Option Bool)
    (flagged : Option Bool) (limit : Int) : List SearchResult :=
  let listLower := list.map lowerStr
  let hasFilters := jsTruthyStr list || completed.isSome || flagged.isSome
  let searchLimit := if hasFilters then limit * 20 else limit
  let fuzzyResults := ranked.filter (fun h => textFilter listLower completed flagged h.doc)
  if fuzzyResults.isEmpty then []
  else
    jsSlice ((jsSlice fuzzyResults searchLimit).map
      (fun h => { reminder := h.doc, score := h.score, matchedTerms := h.terms })) limit

/-- The `getAllReminders` path of `searcher.ts`: pure status browse on the
structured store with completion and flagged filters. -/
def getAllReminders (table : List IndexedReminder) (completed : Option Bool)
    (flagged : Option Bool) (limit : Int) : List SearchResult :=
  let rows := sqlLimit limit
    (sqlOrderBy dueOrderLe (table.filter (fun r => completedPred completed r
        && (match flagged with | some true => r.flagged | _ => true))))
  rows.map (fun r => { reminder := r, score := 1, matchedTerms := [] })

/-- The meaningful-text test of `search`: the query must be truthy, not the
wildcard token, and not whitespace-only. -/
def hasTextQuery (q : Option String) : Bool :=
  match q with
  | none => false
  | some s => s != "" && s != "*" && String.mk (s.data.dropWhile Char.isWhitespace
      |>.reverse.dropWhile Char.isWhitespace |>.reverse) != ""

/-- The routing core of `search` in `searcher.ts` (after the implicit
`ensureIndex` call): list-only queries go to the structured store, text
queries to the fuzzy store, and everything else to the status browse. -/
def searchCore (table : List IndexedReminder) (ranked : List SearchHit)
    (o : SearchOptions) : List SearchResult :=
  if jsTruthyStr o.list && !hasTextQuery o.query then
    searchByList table (o.list.getD "") o.completed o.limit
  else if hasTextQuery o.query then
    searchByText ranked o.list o.completed o.flagged o.limit
  else
    getAllReminders table o.completed o.flagged o.limit

/-- The `getFlaggedReminders` browse operation of `searcher.ts`:
`WHERE flagged = 1 AND completed = 0`, due-date ordering, limit. -/
def getFlaggedReminders (table : List IndexedReminder) (limit : Int) : List IndexedReminder :=
  sqlLimit limit (sqlOrderBy dueOrderLe (table.filter (fun r => r.flagged && !r.completed)))

/-! ## Basic lemmas about the SQL and JavaScript list operations -/

theorem stableInsert_perm (le : α → α → Bool) (x : α) (l : List α) :
    (stableInsert le x l).Perm (x :: l) := by
  induction l with
  | nil => exact List.Perm.refl _
  | cons y ys ih =>
    unfold stableInsert
    split
    · exact List.Perm.refl _
    · exact ((ih.cons y).trans (List.Perm.swap x y ys))

theorem sqlOrderBy_perm (le : α → α → Bool) (l : List α) : (sqlOrderBy le l).Perm l := by
  induction l with
  | nil => exact List.Perm.refl _
  | cons x xs ih => exact (stableInsert_perm le x (sqlOrderBy le xs)).trans (ih.cons x)

theorem mem_of_mem_sqlOrderBy {le : α → α → Bool} {l : List α} {a : α}
    (h : a ∈ sqlOrderBy le l) : a ∈ l :=
  (sqlOrderBy_perm le l).subset h

theorem mem_of_mem_sqlLimit {n : Int} {xs : List α} {a : α} (h : a ∈ sqlLimit n xs) : a ∈ xs := by
  unfold sqlLimit at h
  split at h
  · exact h
  · exact List.mem_of_mem_take h

theorem mem_of_mem_jsSlice {e : Int} {xs : List α} {a : α} (h : a ∈ jsSlice xs e) : a ∈ xs := by
  unfold jsSlice at h
  split at h
  · exact List.mem_of_mem_take h
  · exact List.mem_of_mem_take h

theorem length_sqlLimit_le {n : Int} (h : 0 ≤ n) (xs : List α) :
    (sqlLimit n xs).length ≤ n.toNat := by
  unfold sqlLimit
  split
  · omega
  · simp [List.length_take]

theorem length_jsSlice_le {e : Int} (h : 0 ≤ e) (xs : List α) :
    (jsSlice xs e).length ≤ e.toNat := by
  unfold jsSlice
  split
  · omega
  · simp [List.length_take]

/-! ## C10: the flagged browse returns only flagged, pending reminders -/

/-- C10: every reminder returned by `getFlaggedReminders` is flagged and not
completed, for every table state and every limit. -/
theorem c10_flagged_browse (table : List IndexedReminder) (limit : Int) (r : IndexedReminder)
    (h : r ∈ getFlaggedReminders table limit) : r.flagged = true ∧ r.completed = false := by
  have h1 : r ∈ table.filter (fun r => r.flagged && !r.completed) :=
    mem_of_mem_sqlOrderBy (mem_of_mem_sqlLimit h)
  have h2 := (List.mem_filter.mp h1).2
  simp only [Bool.and_eq_true, Bool.not_eq_eq_eq_not, Bool.not_true] at h2
  exact h2

/-- A concrete flagged, pending reminder used to witness C10. -/
def c10rec : IndexedReminder :=
  { id := 1, title := "a", notes := "", listName := "L", listId := 1, completed := false,
    flagged := true, priority := 0, dueDate := none, creationDate := 5, completionDate := none }

/-- Witness for C10 at a one-element table and limit 5. -/
theorem c10_flagged_browse_witness :
    c10rec ∈ getFlaggedReminders [c10rec] 5 ∧ (c10rec.flagged = true ∧ c10rec.completed = false) :=
  ⟨by decide, c10_flagged_browse [c10rec] 5 c10rec (by decide)⟩

/-! ## C7: when the SourceNotFound error is raised -/

/-- C7 (amended): ingestion raises the SourceNotFound error exactly when no
source database file is found — that is, when the source directory is
absent, or when it exists, is readable and holds no matching file.  An
existing-but-empty directory therefore raises it too, contrary to the
original claim; an unreadable directory surfaces the filesystem error
instead. -/
theorem c7_source_not_found_iff (fs : Fs) :
    errOf (queryAllDatabasesFs fs) = some sourceNotFoundMsg ↔
      (fs.srcDirExists = false ∨ (fs.srcDirReadable = true ∧ fs.srcDbs = [])) := by
  have hne : eaccesMsg ≠ sourceNotFoundMsg := by decide
  unfold queryAllDatabasesFs findRemindersDatabases queryAllDatabasesPure errOf
  cases hE : fs.srcDirExists with
  | false => simp
  | true =>
    cases hR : fs.srcDirReadable with
    | false => simp [hne]
    | true =>
      cases hD : fs.srcDbs with
      | nil => simp
      | cons d ds => simp

/-- The state refuting C7 as stated: the source directory exists and is
readable but holds no database file, and ingestion still raises the
SourceNotFound error. -/
def c7fs : Fs :=
  { srcDirExists := true, srcDirReadable := true, srcDbs := [], indexDbExists := false,
    indexDbMtime := 0, fuzzyExists := false, statsFile := none,
    store := { remindersTable := [], fuzzyDocs := [] } }

/-- Counterexample to C7 as stated: with the source directory present (and
readable, merely empty), ingestion raises the SourceNotFound error, which
the claim says happens only when the directory is absent. -/
theorem c7_counterexample :
    errOf (queryAllDatabasesFs c7fs) = some sourceNotFoundMsg ∧ c7fs.srcDirExists = true := by
  decide

/-! ## C4: the result limit -/

/-- C4 (amended): for every non-negative requested limit, every routing path
of `search` returns at most that many results.  A limit that is zero or
negative is passed through unchecked: zero yields no results, and a
negative limit reaches SQLite (where a negative `LIMIT` means unlimited) or
`Array.slice`, so the bound fails for negative limits. -/
theorem c4_limit_amended (table : List IndexedReminder) (ranked : List SearchHit)
    (o : SearchOptions) (h : 0 ≤ o.limit) :
    (searchCore table ranked o).length ≤ o.limit.toNat := by
  unfold searchCore searchByList searchByText getAllReminders
  dsimp only
  split
  · simpa using length_sqlLimit_le h _
  · split
    · split
      · simp
      · simpa using length_jsSlice_le h _
    · simpa using length_sqlLimit_le h _

/-- Two concrete reminders used by the C4 counterexample. -/
def c4recA : IndexedReminder :=
  { id := 1, title := "a", notes := "", listName := "L", listId := 1, completed := false,
    flagged := false, priority := 0, dueDate := none, creationDate := 5, completionDate := none }

/-- Second concrete reminder of the C4 counterexample. -/
def c4recB : IndexedReminder :=
  { id := 2, title := "b", notes := "", listName := "L", listId := 1, completed := false,
    flagged := false, priority := 0, dueDate := none, creationDate := 6, completionDate := none }

/-- The query of the C4 counterexample: a pure browse with limit `-1`. -/
def c4opts : SearchOptions :=
  { query := none, list := none, completed := none, flagged := none, limit := -1 }

/-- Counterexample to C4 as stated: a limit of `-1` is neither rejected nor
clamped — the whole table (2 records) comes back, which exceeds any
clamped value of a non-positive limit. -/
theorem c4_counterexample :
    c4opts.limit ≤ 0 ∧ (searchCore [c4recA, c4recB] [] c4opts).length = 2
    ∧ ¬ ((searchCore [c4recA, c4recB] [] c4opts).length ≤ c4opts.limit.toNat) := by
  decide

/-- Witness for C4 (amended) at a concrete table and limit 1. -/
theorem c4_limit_amended_witness :
    (0 : Int) ≤ 1 ∧ (searchCore [c4recA, c4recB] []
      { query := none, list := none, completed := none, flagged := none, limit := 1 }).length
      ≤ (1 : Int).toNat :=
  ⟨by decide, c4_limit_amended [c4recA, c4recB] []
    { query := none, list := none, completed := none, flagged := none, limit := 1 } (by decide)⟩

/-! ## C3: filter correctness of the three routing paths -/

theorem searchByList_mem {table : List IndexedReminder} {list : String}
    {completed : Option Bool} {limit : Int} {res : SearchResult}
    (h : res ∈ searchByList table list completed limit) :
    sqlLike ("%" ++ lowerStr list ++ "%") (lowerStr res.reminder.listName) = true
    ∧ completedPred completed res.reminder = true := by
  unfold searchByList at h
  obtain ⟨r, hr, hres⟩ := List.mem_map.mp h
  have hf := (List.mem_filter.mp (mem_of_mem_sqlOrderBy (mem_of_mem_sqlLimit hr))).2
  rw [Bool.and_eq_true] at hf
  subst hres
  exact hf

theorem searchByText_mem {ranked : List SearchHit} {list : Option String}
    {completed : Option Bool} {flagged : Option Bool} {limit : Int} {res : SearchResult}
    (h : res ∈ searchByText ranked list completed flagged limit) :
    textFilter (list.map lowerStr) completed flagged res.reminder = true := by
  unfold searchByText at h
  dsimp only at h
  split at h
  · exact absurd h (List.not_mem_nil res)
  · obtain ⟨hit, hhit, hres⟩ := List.mem_map.mp (mem_of_mem_jsSlice h)
    have hf := (List.mem_filter.mp (mem_of_mem_jsSlice hhit)).2
    rw [← hres]
    exact hf

theorem getAllReminders_mem {table : List IndexedReminder} {completed : Option Bool}
    {flagged : Option Bool} {limit : Int} {res : SearchResult}
    (h : res ∈ getAllReminders table completed flagged limit) :
    completedPred completed res.reminder = true
    ∧ (flagged = some true → res.reminder.flagged = true) := by
  unfold getAllReminders at h
  obtain ⟨r, hr, hres⟩ := List.mem_map.mp h
  have hf := (List.mem_filter.mp (mem_of_mem_sqlOrderBy (mem_of_mem_sqlLimit hr))).2
  rw [Bool.and_eq_true] at hf
  subst hres
  refine ⟨hf.1, fun hfl => ?_⟩
  have := hf.2
  rw [hfl] at this
  exact this

theorem lowerStr_eq_empty_iff (s : String) : lowerStr s = "" ↔ s = "" := by
  constructor
  · intro h
    have h2 : s.data.map Char.toLower = ("" : String).data := congrArg String.data h
    have h3 : (("" : String).data) = [] := rfl
    rw [h3] at h2
    have h4 : s.data = [] := by
      cases hs : s.data with
      | nil => rfl
      | cons c cs => rw [hs] at h2; exact absurd h2 (by simp)
    cases s
    simp_all
  · intro h
    subst h
    rfl

theorem jsTruthyStr_map_lowerStr (o : Option String) :
    jsTruthyStr (o.map lowerStr) = jsTruthyStr o := by
  cases o with
  | none => rfl
  | some s =>
    show (lowerStr s != "") = (s != "")
    by_cases h : s = ""
    · subst h
      rfl
    · have h1 : (lowerStr s != "") = true :=
        bne_iff_ne.mpr (fun hc => h ((lowerStr_eq_empty_iff s).mp hc))
      have h2 : (s != "") = true := bne_iff_ne.mpr h
      rw [h1, h2]

theorem likeTail_isEmpty (t : List Char) :
    likeTail (fun s : List Char => s.isEmpty) t = true := by
  induction t with
  | nil => rfl
  | cons c cs ih => simp [likeTail, ih]

theorem strPrefixAux_nil (pat : List Char) : strPrefixAux pat [] = pat.isEmpty := by
  cases pat with
  | nil => rfl
  | cons p ps => rfl

/-- A wildcard-free pattern followed by `%` matches exactly the texts it
prefixes. -/
theorem likeMatch_append_percent : ∀ (pat : List Char),
    pat.all (fun c => !(c == '%') && !(c == '_')) = true →
    ∀ t, likeMatch (pat ++ ['%']) t = strPrefixAux pat t := by
  intro pat
  induction pat with
  | nil =>
    intro _ t
    show likeMatch ('%' :: []) t = strPrefixAux [] t
    simp [likeMatch, likeTail_isEmpty, strPrefixAux]
  | cons p ps ih =>
    intro h t
    rw [List.all_cons, Bool.and_eq_true] at h
    have h1 := h.1
    rw [Bool.and_eq_true] at h1
    have hp1 : (p == '%') = false := by simpa using h1.1
    have hp2 : (p == '_') = false := by simpa using h1.2
    cases t with
    | nil =>
      show likeMatch (p :: (ps ++ ['%'])) [] = strPrefixAux (p :: ps) []
      simp [likeMatch, strPrefixAux, hp1]
    | cons c cs =>
      show likeMatch (p :: (ps ++ ['%'])) (c :: cs) = strPrefixAux (p :: ps) (c :: cs)
      simp [likeMatch, strPrefixAux, hp1, hp2, ih h.2 cs]

theorem likeTail_contains (pat : List Char)
    (h : pat.all (fun c => !(c == '%') && !(c == '_')) = true) :
    ∀ s, likeTail (likeMatch (pat ++ ['%'])) s = strContainsAux pat s := by
  intro s
  induction s with
  | nil =>
    show likeMatch (pat ++ ['%']) [] = strContainsAux pat []
    rw [likeMatch_append_percent pat h [], strPrefixAux_nil]
    rfl
  | cons c cs ih =>
    show (likeMatch (pat ++ ['%']) (c :: cs) || likeTail (likeMatch (pat ++ ['%'])) cs)
        = strContainsAux pat (c :: cs)
    rw [likeMatch_append_percent pat h (c :: cs), ih]
    rfl

/-- On a filter free of `LIKE` wildcards, the SQL predicate
`LIKE '%filter%'` is exactly substring containment. -/
theorem sqlLike_contains_of_noWildcards (list name : String)
    (h : noWildcards list = true) :
    sqlLike ("%" ++ list ++ "%") name = strContains name list := by
  show likeMatch ("%" ++ list ++ "%").data name.data = strContainsAux list.data name.data
  have hdata : ("%" ++ list ++ "%").data = '%' :: (list.data ++ ['%']) := rfl
  rw [hdata]
  have hstep : likeMatch ('%' :: (list.data ++ ['%'])) name.data
      = likeTail (likeMatch (list.data ++ ['%'])) name.data := by
    simp [likeMatch]
  rw [hstep, likeTail_contains list.data h name.data]

/-- C3 (amended): for every query and every result of the router, a
requested completion status always holds of the result.  When a list
filter is given, on the fuzzy text path the result's list name contains
the filter case-insensitively, while on the list-only structured path it
matches the SQL `LIKE` pattern `%filter%` — which coincides with
case-insensitive containment whenever the lowercased filter is free of the
`LIKE` wildcards `%` and `_` (fourth part), but not in general.  A
requested `flagged = true` holds on the fuzzy text path and the
status-browse path, not on the list-only path, which ignores the flagged
filter (hence the hypothesis excluding that route in the last part). -/
theorem c3_filters_amended (table : List IndexedReminder) (ranked : List SearchHit)
    (o : SearchOptions) (res : SearchResult) (h : res ∈ searchCore table ranked o) :
    (∀ b, o.completed = some b → res.reminder.completed = b)
    ∧ ((jsTruthyStr o.list && !hasTextQuery o.query) = true →
        sqlLike ("%" ++ lowerStr (o.list.getD "") ++ "%")
          (lowerStr res.reminder.listName) = true)
    ∧ (jsTruthyStr o.list = true → hasTextQuery o.query = true →
        strContains (lowerStr res.reminder.listName) (lowerStr (o.list.getD "")) = true)
    ∧ (jsTruthyStr o.list = true → noWildcards (lowerStr (o.list.getD "")) = true →
        strContains (lowerStr res.reminder.listName) (lowerStr (o.list.getD "")) = true)
    ∧ (o.flagged = some true → (jsTruthyStr o.list && !hasTextQuery o.query) = false →
        res.reminder.flagged = true) := by
  unfold searchCore at h
  split at h
  case isTrue hroute =>
    obtain ⟨hlist, hcomp⟩ := searchByList_mem h
    refine ⟨?_, fun _ => hlist, ?_, ?_, ?_⟩
    · intro b hb
      rw [hb] at hcomp
      simpa [completedPred] using hcomp
    · intro _ htext
      rw [Bool.and_eq_true] at hroute
      rw [htext] at hroute
      exact absurd hroute.2 (by simp)
    · intro _ hnw
      rw [← sqlLike_contains_of_noWildcards _ _ hnw]
      exact hlist
    · intro _ hcontra
      rw [hroute] at hcontra
      exact absurd hcontra (by simp)
  case isFalse hroute =>
    split at h
    case isTrue htext =>
      have hf := searchByText_mem h
      unfold textFilter at hf
      rw [Bool.and_eq_true, Bool.and_eq_true] at hf
      obtain ⟨⟨hlist, hcomp⟩, hflag⟩ := hf
      have hcontains : jsTruthyStr o.list = true →
          strContains (lowerStr res.reminder.listName) (lowerStr (o.list.getD "")) = true := by
        intro htruthy
        rw [jsTruthyStr_map_lowerStr o.list, htruthy] at hlist
        cases ho : o.list with
        | none => rw [ho] at htruthy; exact absurd htruthy (by simp [jsTruthyStr])
        | some str =>
          rw [ho] at hlist
          simpa using hlist
      refine ⟨?_, ?_, fun htruthy _ => hcontains htruthy,
        fun htruthy _ => hcontains htruthy, ?_⟩
      · intro b hb
        rw [hb] at hcomp
        simpa using hcomp
      · intro hcond
        exact absurd hcond hroute
      · intro hfl _
        rw [hfl] at hflag
        simpa using hflag
    case isFalse htext =>
      obtain ⟨hcomp, hflag⟩ := getAllReminders_mem h
      have hnolist : jsTruthyStr o.list = false := by
        cases hl : jsTruthyStr o.list with
        | false => rfl
        | true =>
          exfalso
          apply hroute
          simp [hl, htext]
      refine ⟨?_, ?_, ?_, ?_, fun hfl _ => hflag hfl⟩
      · intro b hb
        rw [hb] at hcomp
        simpa [completedPred] using hcomp
      · intro hcond
        exact absurd hcond hroute
      · intro htruthy _
        rw [hnolist] at htruthy
        exact absurd htruthy (by simp)
      · intro htruthy _
        rw [hnolist] at htruthy
        exact absurd htruthy (by simp)

/-- The record of the C3 counterexample: in list Groceries, not flagged. -/
def c3rec : IndexedReminder :=
  { id := 1, title := "x", notes := "", listName := "Groceries", listId := 1, completed := false,
    flagged := false, priority := 0, dueDate := none, creationDate := 5, completionDate := none }

/-- The query of the C3 counterexample: list filter plus `flagged = true`
and no text, which routes to the list-only structured path. -/
def c3opts : SearchOptions :=
  { query := none, list := some "groc", completed := none, flagged := some true, limit := 5 }

/-- Counterexample to C3 as stated: a list-only query with
`flagged = true` returns an unflagged record, because `search` drops the
flagged filter when routing to `searchByList`. -/
theorem c3_counterexample :
    searchCore [c3rec] [] c3opts = [{ reminder := c3rec, score := 1, matchedTerms := [] }]
    ∧ c3opts.flagged = some true ∧ c3rec.flagged = false := by
  decide

/-- The record of the C3 witness: pending and flagged. -/
def c3wrec : IndexedReminder :=
  { id := 2, title := "y", notes := "", listName := "Work", listId := 2, completed := false,
    flagged := true, priority := 0, dueDate := none, creationDate := 6, completionDate := none }

/-- The query of the C3 witness: a status browse with
`completed = false` and `flagged = true`. -/
def c3wopts : SearchOptions :=
  { query := none, list := none, completed := some false, flagged := some true, limit := 5 }

/-- The result of the C3 witness query. -/
def c3wres : SearchResult := { reminder := c3wrec, score := 1, matchedTerms := [] }

/-- The record of the list-path C3 witness. -/
def c3w2rec : IndexedReminder :=
  { id := 3, title := "z", notes := "", listName := "Groceries", listId := 1, completed := false,
    flagged := false, priority := 0, dueDate := none, creationDate := 7, completionDate := none }

/-- The list-only query of the C3 witness, with a wildcard-free filter. -/
def c3w2opts : SearchOptions :=
  { query := none, list := some "groc", completed := none, flagged := none, limit := 5 }

/-- The result of the list-path C3 witness query. -/
def c3w2res : SearchResult := { reminder := c3w2rec, score := 1, matchedTerms := [] }

/-- Witness for C3 (amended): a concrete browse query honours the
completed and flagged filters, and a concrete list-only query returns a
record whose list name matches the `LIKE` pattern and — the filter being
wildcard-free — contains the filter case-insensitively. -/
theorem c3_filters_amended_witness :
    (c3wres.reminder.completed = false ∧ c3wres.reminder.flagged = true)
    ∧ (sqlLike ("%" ++ lowerStr (c3w2opts.list.getD "") ++ "%")
        (lowerStr c3w2res.reminder.listName) = true
      ∧ strContains (lowerStr c3w2res.reminder.listName)
        (lowerStr (c3w2opts.list.getD "")) = true) :=
  ⟨⟨(c3_filters_amended [c3wrec] [] c3wopts c3wres (by decide)).1 false rfl,
    (c3_filters_amended [c3wrec] [] c3wopts c3wres (by decide)).2.2.2.2 rfl (by decide)⟩,
   ⟨(c3_filters_amended [c3w2rec] [] c3w2opts c3w2res (by decide)).2.1 (by decide),
    (c3_filters_amended [c3w2rec] [] c3w2opts c3w2res (by decide)).2.2.2.1
      (by decide) (by decide)⟩⟩

/-- A record in list `Work`, demonstrating the wildcard semantics of the
structured list path. -/
def workRec : IndexedReminder :=
  { id := 4, title := "w", notes := "", listName := "Work", listId := 2, completed := false,
    flagged := false, priority := 0, dueDate := none, creationDate := 8, completionDate := none }

/-- The list-only path applies genuine SQL `LIKE` wildcard semantics: the
filter `w_rk` returns the record in list `Work` although the lowercased
list name does not contain the filter text — wildcarded filters select by
`LIKE`, not by containment. -/
theorem searchByList_wildcard_semantics :
    searchCore [workRec] []
      { query := none, list := some "w_rk", completed := none, flagged := none, limit := 5 }
      = [{ reminder := workRec, score := 1, matchedTerms := [] }]
    ∧ strContains (lowerStr workRec.listName) (lowerStr "w_rk") = false := by
  decide

/-! ## C9: the empty-delta frame property of the incremental update -/

/-- C9: when the incremental update finds no row past the high-water-mark,
both stores are left untouched and the stats record is rewritten with only
the indexed-at timestamp changed — every other field is preserved
verbatim by the record update. -/
theorem c9_empty_delta_frame (now : Int) (st : IndexStats) (store : Store)
    (files : List (List RawRow))
    (hHwm : st.lastIndexedRowid ≠ 0) (hFiles : files ≠ [])
    (hDelta : files.flatMap (deltaRows st.lastIndexedRowid) = []) :
    updateIndexPure now (some st) store files = .ok (some (store, { st with indexedAt := now })) := by
  have h1 : (st.lastIndexedRowid == 0) = false := by simpa using hHwm
  have h2 : files.isEmpty = false := by simpa [List.isEmpty_iff] using hFiles
  simp [updateIndexPure, updateIndexCore, h1, h2, hDelta]

/-- The stats record of the C9 witness: high-water-mark 3. -/
def c9st : IndexStats :=
  { totalReminders := 2, totalLists := 1, completedReminders := 1, pendingReminders := 1,
    indexedAt := 11, oldestReminder := some 100, newestReminder := 200, lastIndexedRowid := 3 }

/-- The store of the C9 witness. -/
def c9store : Store := { remindersTable := [c4recA], fuzzyDocs := [c4recA] }

/-- The source row of the C9 witness: its source id 2 is at or below the
high-water-mark 3, so the delta query returns nothing. -/
def c9row : RawRow :=
  { pk := 2, title := some "t", notes := none, completed := 0, flagged := 0, priority := 0,
    dueDate := none, creationDate := 10, lastModifiedDate := none, completionDate := none,
    listId := 1, listName := some "L", markedForDeletion := 0 }

/-- Witness for C9 at a concrete state with an empty delta. -/
theorem c9_empty_delta_frame_witness :
    c9st.lastIndexedRowid ≠ 0 ∧ ([[c9row]] : List (List RawRow)) ≠ []
    ∧ updateIndexPure 42 (some c9st) c9store [[c9row]]
      = .ok (some (c9store, { c9st with indexedAt := 42 })) :=
  ⟨by decide, by decide,
   c9_empty_delta_frame 42 c9st c9store [[c9row]] (by decide) (by decide) (by decide)⟩

/-! ## C5: monotonicity of the high-water-mark -/

theorem updateStep_lastRowid_le (now : Int) (acc : UpdateAcc) (r : RawRow) :
    acc.lastRowid ≤ (updateStep now acc r).lastRowid := by
  unfold updateStep
  split
  · exact Nat.le_refl _
  · dsimp only
    split
    · omega
    · exact Nat.le_refl _

theorem updateFold_lastRowid_mono (now : Int) (rows : List RawRow) (acc : UpdateAcc) :
    acc.lastRowid ≤ (rows.foldl (updateStep now) acc).lastRowid := by
  induction rows generalizing acc with
  | nil => exact Nat.le_refl _
  | cons r rs ih =>
    exact Nat.le_trans (updateStep_lastRowid_le now acc r) (ih (updateStep now acc r))

/-- C5 (amended): the high-water-mark persisted by a successful incremental
update is at least the previously persisted one; it is seeded from the
prior stats record and only ever raised by the delta scan.  A full rebuild,
by contrast, recomputes the high-water-mark from the current source alone
without consulting the previous stats, so it can decrease (see the
counterexample). -/
theorem c5_incremental_hwm_monotone (now : Int) (st : IndexStats) (store : Store)
    (files : List (List RawRow)) (store' : Store) (st' : IndexStats)
    (h : updateIndexPure now (some st) store files = .ok (some (store', st'))) :
    st.lastIndexedRowid ≤ st'.lastIndexedRowid := by
  simp only [updateIndexPure, updateIndexCore] at h
  by_cases h1 : (st.lastIndexedRowid == 0) = true
  · rw [if_pos h1] at h
    exact absurd (Except.ok.inj h) (by simp)
  · rw [if_neg h1] at h
    by_cases h2 : files.isEmpty = true
    · rw [if_pos h2] at h
      exact absurd h (by simp)
    · rw [if_neg h2] at h
      by_cases h3 : (files.flatMap (deltaRows st.lastIndexedRowid)).isEmpty = true
      · rw [if_pos h3] at h
        have h4 := Option.some.inj (Except.ok.inj h)
        rw [Prod.mk.injEq] at h4
        rw [← h4.2]
      · rw [if_neg h3] at h
        have h4 := Option.some.inj (Except.ok.inj h)
        rw [Prod.mk.injEq] at h4
        rw [← h4.2]
        have h5 := updateFold_lastRowid_mono now (files.flatMap (deltaRows st.lastIndexedRowid))
          { newestDate := st.newestReminder, lastRowid := st.lastIndexedRowid
            newCompleted := 0, newPending := 0, indexed := [] }
        simpa using h5

/-- The previously persisted stats of the C5 counterexample: the
high-water-mark on disk is 5. -/
def c5prev : IndexStats :=
  { totalReminders := 5, totalLists := 1, completedReminders := 0, pendingReminders := 5,
    indexedAt := 0, oldestReminder := some 100, newestReminder := 200, lastIndexedRowid := 5 }

/-- The single remaining source row of the C5 counterexample. -/
def c5row : RawRow :=
  { pk := 1, title := some "only", notes := none, completed := 0, flagged := 0, priority := 0,
    dueDate := none, creationDate := 10, lastModifiedDate := none, completionDate := none,
    listId := 1, listName := some "L", markedForDeletion := 0 }

/-- Counterexample to C5 as stated: after stats with high-water-mark 5 were
persisted, a full rebuild over a source that now holds a single record
persists high-water-mark 1 — the newly persisted value is smaller than the
previously persisted one, so the claim fails for full rebuilds. -/
theorem c5_counterexample :
    (okOf (buildIndexPure 0 [[c5row]])).map (fun p => p.2.lastIndexedRowid) = some 1
    ∧ ¬ (c5prev.lastIndexedRowid ≤ 1) := by
  decide

/-- The source row of the C5 witness, with source id above the stored
high-water-mark. -/
def c5wrow : RawRow :=
  { pk := 9, title := some "new", notes := none, completed := 0, flagged := 0, priority := 0,
    dueDate := none, creationDate := 300, lastModifiedDate := none, completionDate := none,
    listId := 1, listName := some "L", markedForDeletion := 0 }

/-- The canonical record the C5 witness update appends. -/
def c5wrec : IndexedReminder :=
  { id := 9, title := "new", notes := "", listName := "L", listId := 1, completed := false,
    flagged := false, priority := 0, dueDate := none, creationDate := 978307500,
    completionDate := none }

/-- The stats the C5 witness update persists. -/
def c5wstats : IndexStats :=
  { totalReminders := 6, totalLists := 1, completedReminders := 0, pendingReminders := 6,
    indexedAt := 7, oldestReminder := some 100, newestReminder := 978307500,
    lastIndexedRowid := 9 }

/-- Witness for C5 (amended) at a concrete successful incremental update:
the high-water-mark rises from 5 to 9. -/
theorem c5_incremental_hwm_monotone_witness :
    c5prev.lastIndexedRowid ≤ c5wstats.lastIndexedRowid :=
  c5_incremental_hwm_monotone 7 c5prev { remindersTable := [], fuzzyDocs := [] } [[c5wrow]]
    { remindersTable := [c5wrec], fuzzyDocs := [c5wrec] } c5wstats (by decide)

/-! ## C8: untitled records are excluded everywhere -/

theorem titled_toIndexed (now : Int) (i : Nat) (r : RawRow) (h : jsTruthyStr r.title = true) :
    (toIndexed now i r).title ≠ "" := by
  cases ht : r.title with
  | none => rw [ht] at h; exact absurd h (by simp [jsTruthyStr])
  | some s =>
    rw [ht] at h
    have hs : s ≠ "" := by simpa [jsTruthyStr] using h
    simpa [toIndexed, ht] using hs

theorem buildFold_indexed (now : Int) (rows : List (Nat × RawRow)) (acc : BuildAcc) :
    (rows.foldl (buildStep now) acc).indexed =
      acc.indexed ++ (rows.filter (fun p => jsTruthyStr p.2.title)).map
        (fun p => toIndexed now p.1 p.2) := by
  induction rows generalizing acc with
  | nil => simp
  | cons p ps ih =>
    by_cases h : jsTruthyStr p.2.title = true
    · rw [List.foldl_cons, ih]
      simp [buildStep, h]
    · rw [List.foldl_cons, ih]
      simp [buildStep, h, Bool.not_eq_true]

theorem updateFold_indexed (now : Int) (rows : List RawRow) (acc : UpdateAcc) :
    (rows.foldl (updateStep now) acc).indexed =
      acc.indexed ++ (rows.filter (fun r => jsTruthyStr r.title)).map
        (fun r => toIndexed now r.pk r) := by
  induction rows generalizing acc with
  | nil => simp
  | cons p ps ih =>
    by_cases h : jsTruthyStr p.title = true
    · rw [List.foldl_cons, ih]
      simp [updateStep, h]
    · rw [List.foldl_cons, ih]
      simp [updateStep, h, Bool.not_eq_true]

/-- C8: an untitled record contributes nothing anywhere.  First two parts:
the indexing loops of the full rebuild and of the incremental update are
unchanged when rows with a falsy title are removed beforehand — hence those
rows influence neither store nor any stats field those loops feed.  Last two
parts: every record a successful full rebuild puts into either store has a
non-empty title, and every record present after a successful incremental
update was already in the store or has a non-empty title. -/
theorem c8_untitled_excluded :
    (∀ (now : Int) (rows : List (Nat × RawRow)) (acc : BuildAcc),
      rows.foldl (buildStep now) acc =
        (rows.filter (fun p => jsTruthyStr p.2.title)).foldl (buildStep now) acc)
    ∧ (∀ (now : Int) (rows : List RawRow) (acc : UpdateAcc),
      rows.foldl (updateStep now) acc =
        (rows.filter (fun r => jsTruthyStr r.title)).foldl (updateStep now) acc)
    ∧ (∀ (now : Int) (files : List (List RawRow)) (store : Store) (stats : IndexStats),
      buildIndexPure now files = .ok (store, stats) →
        (∀ r ∈ store.remindersTable, r.title ≠ "") ∧ (∀ r ∈ store.fuzzyDocs, r.title ≠ ""))
    ∧ (∀ (now : Int) (statsFile : Option IndexStats) (store : Store)
        (files : List (List RawRow)) (store' : Store) (stats' : IndexStats),
      updateIndexPure now statsFile store files = .ok (some (store', stats')) →
        (∀ r ∈ store'.remindersTable, r ∈ store.remindersTable ∨ r.title ≠ "")
        ∧ (∀ r ∈ store'.fuzzyDocs, r ∈ store.fuzzyDocs ∨ r.title ≠ "")) := by
  have hbuild : ∀ (now : Int) (rows : List (Nat × RawRow)) (acc : BuildAcc),
      rows.foldl (buildStep now) acc =
        (rows.filter (fun p => jsTruthyStr p.2.title)).foldl (buildStep now) acc := by
    intro now rows
    induction rows with
    | nil => intro acc; rfl
    | cons p ps ih =>
      intro acc
      by_cases h : jsTruthyStr p.2.title = true
      · simp only [List.filter_cons, h, if_pos, List.foldl_cons]
        exact ih _
      · have hb : jsTruthyStr p.2.title = false := by simpa using h
        simp only [List.filter_cons, hb, Bool.false_eq_true, if_neg, List.foldl_cons]
        rw [show buildStep now acc p = acc by simp [buildStep, hb]]
        exact ih _
  have hupdate : ∀ (now : Int) (rows : List RawRow) (acc : UpdateAcc),
      rows.foldl (updateStep now) acc =
        (rows.filter (fun r => jsTruthyStr r.title)).foldl (updateStep now) acc := by
    intro now rows
    induction rows with
    | nil => intro acc; rfl
    | cons p ps ih =>
      intro acc
      by_cases h : jsTruthyStr p.title = true
      · simp only [List.filter_cons, h, if_pos, List.foldl_cons]
        exact ih _
      · have hb : jsTruthyStr p.title = false := by simpa using h
        simp only [List.filter_cons, hb, Bool.false_eq_true, if_neg, List.foldl_cons]
        rw [show updateStep now acc p = acc by simp [updateStep, hb]]
        exact ih _
  refine ⟨hbuild, hupdate, ?_, ?_⟩
  · intro now files store stats h
    unfold buildIndexPure at h
    cases hq : queryAllDatabasesPure files with
    | error e => rw [hq] at h; exact absurd h (by simp)
    | ok rows =>
      rw [hq] at h
      have h2 := Except.ok.inj h
      rw [Prod.mk.injEq] at h2
      have htable : store.remindersTable =
          (rows.filter (fun p => jsTruthyStr p.2.title)).map (fun p => toIndexed now p.1 p.2) := by
        rw [← h2.1]
        simpa [buildIndexBody] using buildFold_indexed now rows
          { oldestDate := none, newestDate := 0, completedCount := 0, pendingCount := 0,
            indexed := [] }
      have hfuzzy : store.fuzzyDocs =
          (rows.filter (fun p => jsTruthyStr p.2.title)).map (fun p => toIndexed now p.1 p.2) := by
        rw [← h2.1]
        simpa [buildIndexBody] using buildFold_indexed now rows
          { oldestDate := none, newestDate := 0, completedCount := 0, pendingCount := 0,
            indexed := [] }
      constructor
      · intro r hr
        rw [htable] at hr
        obtain ⟨p, hp, hpr⟩ := List.mem_map.mp hr
        rw [← hpr]
        exact titled_toIndexed now p.1 p.2 ((List.mem_filter.mp hp).2)
      · intro r hr
        rw [hfuzzy] at hr
        obtain ⟨p, hp, hpr⟩ := List.mem_map.mp hr
        rw [← hpr]
        exact titled_toIndexed now p.1 p.2 ((List.mem_filter.mp hp).2)
  · intro now statsFile store files store' stats' h
    cases statsFile with
    | none =>
      simp only [updateIndexPure] at h
      exact absurd (Except.ok.inj h) (by simp)
    | some st =>
      simp only [updateIndexPure, updateIndexCore] at h
      by_cases h1 : (st.lastIndexedRowid == 0) = true
      · rw [if_pos h1] at h
        exact absurd (Except.ok.inj h) (by simp)
      · rw [if_neg h1] at h
        by_cases h2 : files.isEmpty = true
        · rw [if_pos h2] at h
          exact absurd h (by simp)
        · rw [if_neg h2] at h
          by_cases h3 : (files.flatMap (deltaRows st.lastIndexedRowid)).isEmpty = true
          · rw [if_pos h3] at h
            have h4 := Option.some.inj (Except.ok.inj h)
            rw [Prod.mk.injEq] at h4
            rw [← h4.1]
            exact ⟨fun r hr => Or.inl hr, fun r hr => Or.inl hr⟩
          · rw [if_neg h3] at h
            have h4 := Option.some.inj (Except.ok.inj h)
            rw [Prod.mk.injEq] at h4
            rw [← h4.1]
            have hidx := updateFold_indexed now (files.flatMap (deltaRows st.lastIndexedRowid))
              { newestDate := st.newestReminder, lastRowid := st.lastIndexedRowid
                newCompleted := 0, newPending := 0, indexed := [] }
            constructor
            · intro r hr
              simp only at hr
              rcases List.mem_append.mp hr with hl | hrt
              · exact Or.inl hl
              · rw [hidx] at hrt
                simp only [List.nil_append] at hrt
                obtain ⟨p, hp, hpr⟩ := List.mem_map.mp hrt
                rw [← hpr]
                exact Or.inr (titled_toIndexed now p.pk p ((List.mem_filter.mp hp).2))
            · intro r hr
              simp only at hr
              rcases List.mem_append.mp hr with hl | hrt
              · exact Or.inl hl
              · rw [hidx] at hrt
                simp only [List.nil_append] at hrt
                obtain ⟨p, hp, hpr⟩ := List.mem_map.mp hrt
                rw [← hpr]
                exact Or.inr (titled_toIndexed now p.pk p ((List.mem_filter.mp hp).2))

/-- An untitled source row used by the C8 witness. -/
def c8untitled : RawRow :=
  { pk := 4, title := none, notes := some "n", completed := 0, flagged := 0, priority := 0,
    dueDate := none, creationDate := 50, lastModifiedDate := none, completionDate := none,
    listId := 1, listName := some "L", markedForDeletion := 0 }

/-- Witness for C8: a concrete rebuild over a titled and an untitled row
indexes only the titled one, and its stored title is non-empty. -/
theorem c8_untitled_excluded_witness :
    ∀ r ∈ ({ remindersTable := [toIndexed 0 1 c5row], fuzzyDocs := [toIndexed 0 1 c5row] }
        : Store).remindersTable, r.title ≠ "" :=
  (c8_untitled_excluded.2.2.1 0 [[c5row, c8untitled]]
    { remindersTable := [toIndexed 0 1 c5row], fuzzyDocs := [toIndexed 0 1 c5row] }
    (buildIndexBody 0 [(1, c5row)]).2 (by decide)).1

/-! ## C6: the staleness verdicts of ensureIndex -/

/-- The verdict of a freshness check, when it returns one. -/
def kindOf : Except String (RebuildKind × Fs) → Option RebuildKind
  | .ok (k, _) => some k
  | .error _ => none

/-- C6 (amended): when no index exists and source database files are found,
`ensureIndex` reports `full`; when an index exists and the source directory
yields no database file (absent, or readable and empty), it reports the
no-op verdict.  However, when no index exists and no source database is
found, `ensureIndex` does not return the no-op verdict: the forced full
rebuild throws the SourceNotFound error (see the counterexample). -/
theorem c6_staleness_amended :
    (∀ (now : Int) (fs : Fs), indexExistsFs fs = false → fs.srcDirExists = true →
      fs.srcDirReadable = true → fs.srcDbs ≠ [] →
      kindOf (ensureIndexFs now fs) = some RebuildKind.full)
    ∧ (∀ (now : Int) (fs : Fs), indexExistsFs fs = true →
      (fs.srcDirExists = false ∨ (fs.srcDirReadable = true ∧ fs.srcDbs = [])) →
      ensureIndexFs now fs = .ok (RebuildKind.noop, fs)) := by
  constructor
  · intro now fs hIdx hDir hRead hDbs
    have hfind : findRemindersDatabases fs = .ok fs.srcDbs := by
      simp [findRemindersDatabases, hDir, hRead]
    have hneeds : indexNeedsRebuild fs = .ok true := by
      simp [indexNeedsRebuild, hIdx]
    have hne : (fs.srcDbs.map SourceDb.rows).isEmpty = false := by
      simp [List.isEmpty_iff, hDbs]
    simp [kindOf, ensureIndexFs, hneeds, hIdx, buildIndexFs, hfind, buildIndexPure,
      queryAllDatabasesPure, hne]
  · intro now fs hIdx hsrc
    have hneeds : indexNeedsRebuild fs = .ok false := by
      rcases hsrc with h | ⟨hRead, hDbs⟩
      · simp [indexNeedsRebuild, hIdx, findRemindersDatabases, h]
      · cases hE : fs.srcDirExists with
        | false => simp [indexNeedsRebuild, hIdx, findRemindersDatabases, hE]
        | true => simp [indexNeedsRebuild, hIdx, findRemindersDatabases, hE, hRead, hDbs]
    simp [ensureIndexFs, hneeds]

/-- The state refuting C6 as stated: no index exists and the source
directory is empty. -/
def c6fs : Fs :=
  { srcDirExists := true, srcDirReadable := true, srcDbs := [], indexDbExists := false,
    indexDbMtime := 0, fuzzyExists := false, statsFile := none,
    store := { remindersTable := [], fuzzyDocs := [] } }

/-- Counterexample to C6 as stated: with no index and an empty source
directory, the freshness check neither reports `none` nor returns normally —
`ensureIndex` falls into a full rebuild, which throws the SourceNotFound
error. -/
theorem c6_counterexample :
    errOf (ensureIndexFs 0 c6fs) = some sourceNotFoundMsg
    ∧ indexExistsFs c6fs = false ∧ c6fs.srcDbs = [] := by
  decide

/-- The C6 witness state with no index and one source database. -/
def c6wfs1 : Fs :=
  { srcDirExists := true, srcDirReadable := true, srcDbs := [{ mtime := 5, rows := [c5row] }],
    indexDbExists := false, indexDbMtime := 0, fuzzyExists := false, statsFile := none,
    store := { remindersTable := [], fuzzyDocs := [] } }

/-- The C6 witness state with an index present and an absent source
directory. -/
def c6wfs2 : Fs :=
  { srcDirExists := false, srcDirReadable := true, srcDbs := [], indexDbExists := true,
    indexDbMtime := 9, fuzzyExists := true, statsFile := none,
    store := { remindersTable := [], fuzzyDocs := [] } }

/-- Witness for C6 (amended) at the two concrete states. -/
theorem c6_staleness_amended_witness :
    kindOf (ensureIndexFs 3 c6wfs1) = some RebuildKind.full
    ∧ ensureIndexFs 3 c6wfs2 = .ok (RebuildKind.noop, c6wfs2) :=
  ⟨c6_staleness_amended.1 3 c6wfs1 (by decide) (by decide) (by decide) (by decide),
   c6_staleness_amended.2 3 c6wfs2 (by decide) (Or.inl (by decide))⟩

/-! ## C2: deduplication of the full ingestion -/

/-- Modelled from the words of the spec, for comparison with the source
fold: keep the first occurrence of each dedup key, scanning left to right
with an accumulated seen-key set. -/
def keepFirstByKey : List RawRow → List String → List RawRow
  | [], _ => []
  | r :: rs, seen =>
    if seen.contains (dedupKey r) then keepFirstByKey rs seen
    else r :: keepFirstByKey rs (dedupKey r :: seen)

/-- Sequential id assignment starting at `n`. -/
def zipIds : Nat → List RawRow → List (Nat × RawRow)
  | _, [] => []
  | n, r :: rs => (n, r) :: zipIds (n + 1) rs

theorem zipIds_map_snd (n : Nat) (rows : List RawRow) : (zipIds n rows).map Prod.snd = rows := by
  induction rows generalizing n with
  | nil => rfl
  | cons r rs ih => simp [zipIds, ih]

theorem zipIds_length (n : Nat) (rows : List RawRow) : (zipIds n rows).length = rows.length := by
  induction rows generalizing n with
  | nil => rfl
  | cons r rs ih => simp [zipIds, ih]

theorem zipIds_map_fst (n : Nat) (rows : List RawRow) :
    (zipIds n rows).map Prod.fst = List.range' n rows.length := by
  induction rows generalizing n with
  | nil => rfl
  | cons r rs ih => rw [List.length_cons, List.range'_succ]; simp [zipIds, ih]

/-- The dedup fold of `queryAllDatabases`, characterised against the
spec-worded `keepFirstByKey`: the output extends by the kept rows zipped
with sequential ids, the counter advances by the number of kept rows, and
the seen set gains exactly the kept keys. -/
theorem dedup_foldl_spec (rows : List RawRow) (seen : List String) (n : Nat)
    (out : List (Nat × RawRow)) :
    rows.foldl dedupStep { seen := seen, nextId := n, out := out } =
      { seen := ((keepFirstByKey rows seen).map dedupKey).reverse ++ seen
        nextId := n + (keepFirstByKey rows seen).length
        out := out ++ zipIds n (keepFirstByKey rows seen) } := by
  induction rows generalizing seen n out with
  | nil => simp [keepFirstByKey, zipIds]
  | cons r rs ih =>
    rw [List.foldl_cons]
    by_cases hm : dedupKey r ∈ seen
    · have hk : keepFirstByKey (r :: rs) seen = keepFirstByKey rs seen := by
        simp [keepFirstByKey, hm]
      rw [show dedupStep ⟨seen, n, out⟩ r = ⟨seen, n, out⟩ by simp [dedupStep, hm]]
      rw [ih, hk]
    · have hk : keepFirstByKey (r :: rs) seen = r :: keepFirstByKey rs (dedupKey r :: seen) := by
        simp [keepFirstByKey, hm]
      rw [show dedupStep ⟨seen, n, out⟩ r = ⟨dedupKey r :: seen, n + 1, out ++ [(n, r)]⟩ by
        simp [dedupStep, hm]]
      rw [ih, hk]
      rw [DedupState.mk.injEq]
      refine ⟨?_, ?_, ?_⟩
      · simp
      · simp only [List.length_cons]
        omega
      · simp [zipIds]

/-- The nested per-file fold of `queryAllDatabases` equals the fold over
the concatenated scan. -/
theorem queryAll_foldl_flat (files : List (List RawRow)) (st : DedupState) :
    files.foldl (fun st file => (sqlSourceRows file).foldl dedupStep st) st
      = (files.flatMap sqlSourceRows).foldl dedupStep st := by
  induction files generalizing st with
  | nil => rfl
  | cons f fx ih =>
    rw [List.foldl_cons, List.flatMap_cons, List.foldl_append]
    exact ih _

theorem keepFirstByKey_keys_nodup (rows : List RawRow) (seen : List String) :
    ((keepFirstByKey rows seen).map dedupKey).Nodup
    ∧ ∀ k ∈ (keepFirstByKey rows seen).map dedupKey, seen.contains k = false := by
  induction rows generalizing seen with
  | nil => simp [keepFirstByKey]
  | cons r rs ih =>
    by_cases hm : dedupKey r ∈ seen
    · have hk : keepFirstByKey (r :: rs) seen = keepFirstByKey rs seen := by
        simp [keepFirstByKey, hm]
      rw [hk]
      exact ih seen
    · have hk : keepFirstByKey (r :: rs) seen = r :: keepFirstByKey rs (dedupKey r :: seen) := by
        simp [keepFirstByKey, hm]
      rw [hk]
      have ih2 := ih (dedupKey r :: seen)
      simp only [List.map_cons]
      constructor
      · rw [List.nodup_cons]
        refine ⟨fun hmem => ?_, ih2.1⟩
        have h3 := ih2.2 _ hmem
        simp at h3
      · intro k hk2
        rcases List.mem_cons.mp hk2 with hk1 | hk3
        · rw [hk1]
          simpa using hm
        · have h3 := ih2.2 k hk3
          simp only [List.contains_cons, Bool.or_eq_false_iff] at h3
          exact h3.2

theorem keepFirstByKey_of_nodup (rows : List RawRow) (seen : List String)
    (hnd : (rows.map dedupKey).Nodup)
    (hseen : ∀ r ∈ rows, seen.contains (dedupKey r) = false) :
    keepFirstByKey rows seen = rows := by
  induction rows generalizing seen with
  | nil => rfl
  | cons r rs ih =>
    have h1 : seen.contains (dedupKey r) = false := hseen r (by simp)
    have hm : dedupKey r ∉ seen := by simpa using h1
    have hk : keepFirstByKey (r :: rs) seen = r :: keepFirstByKey rs (dedupKey r :: seen) := by
      simp [keepFirstByKey, hm]
    rw [hk]
    congr 1
    apply ih
    · exact (List.nodup_cons.mp (by simpa using hnd)).2
    · intro x hx
      have hne : dedupKey x ≠ dedupKey r := by
        intro hc
        exact (List.nodup_cons.mp (by simpa using hnd)).1
          (hc ▸ List.mem_map_of_mem dedupKey hx)
      have h2 : dedupKey x ∉ seen := by simpa using hseen x (List.mem_cons_of_mem r hx)
      simp [List.contains_cons, hne, h2]

/-- C2 (amended): the full ingestion collapses rows by the string encoding
`title|listName|creationDate` of the dedup key (JavaScript renders `null`
fields as the text `null`), first occurrence in scan order winning, and
assigns sequential global ids 1, 2, 3, … independent of per-file source
ids; consequently at most one record per composite (title, list name,
creation timestamp) triple survives.  The string encoding is not injective
in the triple, so rows whose fields contain the separator (or a `null`
rendering) can be collapsed across distinct triples — see the
counterexample. -/
theorem c2_dedup_amended (files : List (List RawRow)) (out : List (Nat × RawRow))
    (h : queryAllDatabasesPure files = .ok out) :
    out.map Prod.snd = keepFirstByKey (files.flatMap sqlSourceRows) []
    ∧ out.map Prod.fst = List.range' 1 out.length
    ∧ List.Pairwise (fun p q : Nat × RawRow =>
        ¬ (p.2.title = q.2.title ∧ p.2.listName = q.2.listName
           ∧ p.2.creationDate = q.2.creationDate)) out := by
  unfold queryAllDatabasesPure at h
  by_cases hfe : files.isEmpty = true
  · rw [if_pos hfe] at h
    exact absurd h (by simp)
  · rw [if_neg hfe] at h
    have hout := Except.ok.inj h
    rw [queryAll_foldl_flat, dedup_foldl_spec] at hout
    simp only [List.nil_append] at hout
    refine ⟨?_, ?_, ?_⟩
    · rw [← hout]
      exact zipIds_map_snd 1 _
    · rw [← hout, zipIds_map_fst, zipIds_length]
    · have hnd := (keepFirstByKey_keys_nodup (files.flatMap sqlSourceRows) []).1
      rw [← hout]
      have hkeys : ((zipIds 1 (keepFirstByKey (files.flatMap sqlSourceRows) [])).map
          (fun p => dedupKey p.2)).Nodup := by
        have hmm : (zipIds 1 (keepFirstByKey (files.flatMap sqlSourceRows) [])).map
            (fun p => dedupKey p.2)
            = (keepFirstByKey (files.flatMap sqlSourceRows) []).map dedupKey := by
          rw [show (fun p : Nat × RawRow => dedupKey p.2) = (dedupKey ∘ Prod.snd) from rfl,
            ← List.map_map, zipIds_map_snd]
        rw [hmm]
        exact hnd
      have hpw : (zipIds 1 (keepFirstByKey (files.flatMap sqlSourceRows) [])).Pairwise
          (fun p q => dedupKey p.2 ≠ dedupKey q.2) := List.pairwise_map.mp hkeys
      refine hpw.imp ?_
      intro p q hne hc
      apply hne
      obtain ⟨h1, h2, h3⟩ := hc
      simp [dedupKey, h1, h2, h3]

/-- First row of the C2 counterexample: the separator character inside the
title makes its key string collide with the next row. -/
def c2p : RawRow :=
  { pk := 1, title := some "a|b", notes := none, completed := 0, flagged := 0, priority := 0,
    dueDate := none, creationDate := 5, lastModifiedDate := none, completionDate := none,
    listId := 1, listName := some "c", markedForDeletion := 0 }

/-- Second row of the C2 counterexample: a different composite
(title, list name, creation timestamp) triple with the same key string. -/
def c2q : RawRow :=
  { pk := 2, title := some "a", notes := none, completed := 0, flagged := 0, priority := 0,
    dueDate := none, creationDate := 5, lastModifiedDate := none, completionDate := none,
    listId := 1, listName := some "b|c", markedForDeletion := 0 }

/-- Counterexample to C2 as stated: two rows with distinct composite Dedup
Key triples are collapsed into a single canonical record, because the code
compares the string `title|listName|creationDate` and both rows render as
`a|b|c|5`.  Collapse is therefore not keyed by the composite triple. -/
theorem c2_counterexample :
    okOf (queryAllDatabasesPure [[c2p, c2q]]) = some [(1, c2p)]
    ∧ ¬ (c2p.title = c2q.title ∧ c2p.listName = c2q.listName
         ∧ c2p.creationDate = c2q.creationDate) := by
  decide

/-- Witness for C2 (amended) at a concrete one-file, one-row source. -/
theorem c2_dedup_amended_witness :
    ([(1, c5row)] : List (Nat × RawRow)).map Prod.snd
      = keepFirstByKey ([[c5row]].flatMap sqlSourceRows) []
    ∧ ([(1, c5row)] : List (Nat × RawRow)).map Prod.fst = List.range' 1 [(1, c5row)].length
    ∧ List.Pairwise (fun p q : Nat × RawRow =>
        ¬ (p.2.title = q.2.title ∧ p.2.listName = q.2.listName
           ∧ p.2.creationDate = q.2.creationDate)) [(1, c5row)] :=
  c2_dedup_amended [[c5row]] [(1, c5row)] (by decide)

/-! ## C1: incremental update versus full rebuild -/

/-- A canonical record with its synthetic identifier erased, for comparing
record sets "ignoring identifier ordering". -/
structure CanonicalView where
  title : String
  notes : String
  listName : String
  listId : Int
  completed : Bool
  flagged : Bool
  priority : Int
  dueDate : Option Int
  creationDate : Int
  completionDate : Option Int
deriving DecidableEq, Repr

/-- Forget the identifier of an indexed reminder. -/
def eraseId (r : IndexedReminder) : CanonicalView :=
  { title := r.title, notes := r.notes, listName := r.listName, listId := r.listId,
    completed := r.completed, flagged := r.flagged, priority := r.priority,
    dueDate := r.dueDate, creationDate := r.creationDate, completionDate := r.completionDate }

/-- The id-independent canonicalization of a raw row. -/
def canonView (now : Int) (r : RawRow) : CanonicalView := eraseId (toIndexed now 0 r)

theorem sqlSourceRows_perm (file : List RawRow) :
    (sqlSourceRows file).Perm (file.filter (fun r => r.markedForDeletion == 0)) :=
  sqlOrderBy_perm _ _

theorem deltaRows_perm (hwm : Nat) (file : List RawRow) :
    (deltaRows hwm file).Perm
      (file.filter (fun r => r.markedForDeletion == 0 && decide (hwm < r.pk))) :=
  sqlOrderBy_perm _ _

theorem append_block_swap (a b c d : List α) :
    ((a ++ b) ++ (c ++ d)).Perm ((a ++ c) ++ (b ++ d)) := by
  rw [List.append_assoc a b (c ++ d), List.append_assoc a c (b ++ d)]
  apply List.Perm.append_left a
  rw [← List.append_assoc b c d, ← List.append_assoc c b d]
  exact List.perm_append_comm.append_right d

theorem sqlSourceRows_append_perm (f a : List RawRow) :
    (sqlSourceRows (f ++ a)).Perm (sqlSourceRows f ++ sqlSourceRows a) := by
  refine (sqlSourceRows_perm (f ++ a)).trans ?_
  rw [List.filter_append]
  exact (sqlSourceRows_perm f).symm.append (sqlSourceRows_perm a).symm

/-- Scanning the per-file-extended sources is, up to permutation, the scan
of the old sources followed by the scan of the additions. -/
theorem scan_zipWith_perm : ∀ (S added : List (List RawRow)), added.length = S.length →
    ((S.zipWith (· ++ ·) added).flatMap sqlSourceRows).Perm
      (S.flatMap sqlSourceRows ++ added.flatMap sqlSourceRows) := by
  intro S
  induction S with
  | nil =>
    intro added h
    have ha : added = [] := List.length_eq_zero.mp h
    subst ha
    simp
  | cons f S ih =>
    intro added h
    cases added with
    | nil => simp at h
    | cons a added =>
      have h' : added.length = S.length := by simpa using h
      simp only [List.zipWith_cons_cons, List.flatMap_cons]
      refine ((sqlSourceRows_append_perm f a).append (ih added h')).trans ?_
      exact append_block_swap ..

theorem delta_filter_nil_of_le (hwm : Nat) (f : List RawRow)
    (h : ∀ r ∈ f, r.pk ≤ hwm) :
    f.filter (fun r => r.markedForDeletion == 0 && decide (hwm < r.pk)) = [] := by
  rw [List.filter_eq_nil_iff]
  intro r hr
  simp [Nat.not_lt.mpr (h r hr)]

theorem delta_filter_of_gt (hwm : Nat) (a : List RawRow) (h : ∀ r ∈ a, hwm < r.pk) :
    a.filter (fun r => r.markedForDeletion == 0 && decide (hwm < r.pk))
      = a.filter (fun r => r.markedForDeletion == 0) := by
  apply List.filter_congr
  intro r hr
  simp [h r hr]

theorem deltaRows_append_perm (hwm : Nat) (f a : List RawRow)
    (hOld : ∀ r ∈ f, r.pk ≤ hwm) (hNew : ∀ r ∈ a, hwm < r.pk) :
    (deltaRows hwm (f ++ a)).Perm (sqlSourceRows a) := by
  refine (deltaRows_perm hwm (f ++ a)).trans ?_
  rw [List.filter_append, delta_filter_nil_of_le hwm f hOld, delta_filter_of_gt hwm a hNew,
    List.nil_append]
  exact (sqlSourceRows_perm a).symm

/-- The delta scan of the per-file-extended sources is, up to permutation,
the scan of the additions, provided all old rows sit at or below the
high-water-mark and all added rows above it. -/
theorem deltaScan_zipWith_perm : ∀ (S added : List (List RawRow)) (hwm : Nat),
    added.length = S.length →
    (∀ f ∈ S, ∀ r ∈ f, r.pk ≤ hwm) → (∀ a ∈ added, ∀ r ∈ a, hwm < r.pk) →
    ((S.zipWith (· ++ ·) added).flatMap (deltaRows hwm)).Perm
      (added.flatMap sqlSourceRows) := by
  intro S
  induction S with
  | nil =>
    intro added hwm h _ _
    cases added with
    | nil => simp
    | cons a added => simp at h
  | cons f S ih =>
    intro added hwm h hOld hNew
    cases added with
    | nil => simp at h
    | cons a added =>
      have h' : added.length = S.length := by simpa using h
      simp only [List.zipWith_cons_cons, List.flatMap_cons]
      have p1 : (deltaRows hwm (f ++ a)).Perm (sqlSourceRows a) :=
        deltaRows_append_perm hwm f a (hOld f (by simp)) (hNew a (by simp))
      have p2 := ih added hwm h' (fun g hg => hOld g (List.mem_cons_of_mem _ hg))
        (fun g hg => hNew g (List.mem_cons_of_mem _ hg))
      exact p1.append p2

theorem filter_snd_map (rows : List (Nat × RawRow)) (g : RawRow → CanonicalView)
    (p : RawRow → Bool) :
    (rows.filter (fun q => p q.2)).map (fun q => g q.2)
      = ((rows.map Prod.snd).filter p).map g := by
  induction rows with
  | nil => rfl
  | cons q qs ih =>
    by_cases h : p q.2 = true
    · simp [List.filter_cons, h, ih]
    · simp [List.filter_cons, h, ih]

/-- The canonical view of a full rebuild: every surviving titled row of the
ingested sequence, canonicalized with the identifier forgotten. -/
theorem build_erased (now : Int) (rows : List (Nat × RawRow)) :
    ((buildIndexBody now rows).1.remindersTable).map eraseId
      = ((rows.map Prod.snd).filter (fun r => jsTruthyStr r.title)).map (canonView now) := by
  have h1 : (buildIndexBody now rows).1.remindersTable
      = (rows.filter (fun p => jsTruthyStr p.2.title)).map (fun p => toIndexed now p.1 p.2) := by
    simpa [buildIndexBody] using buildFold_indexed now rows
      { oldestDate := none, newestDate := 0, completedCount := 0, pendingCount := 0,
        indexed := [] }
  rw [h1, List.map_map]
  rw [show (eraseId ∘ fun p : Nat × RawRow => toIndexed now p.1 p.2)
      = (fun p : Nat × RawRow => canonView now p.2) from rfl]
  exact filter_snd_map rows (canonView now) (fun r => jsTruthyStr r.title)

/-- Successful ingestion characterised: the output is the first-occurrence
scan zipped with sequential ids, and the file list is non-empty. -/
theorem queryAll_ok_char (files : List (List RawRow)) (out : List (Nat × RawRow))
    (h : queryAllDatabasesPure files = .ok out) :
    out = zipIds 1 (keepFirstByKey (files.flatMap sqlSourceRows) []) ∧ files ≠ [] := by
  unfold queryAllDatabasesPure at h
  by_cases hfe : files.isEmpty = true
  · rw [if_pos hfe] at h
    exact absurd h (by simp)
  · rw [if_neg hfe] at h
    have hout := Except.ok.inj h
    rw [queryAll_foldl_flat, dedup_foldl_spec] at hout
    simp only [List.nil_append] at hout
    exact ⟨hout.symm, by simpa [List.isEmpty_iff] using hfe⟩

/-- The accumulator the non-empty-delta branch of `updateIndex` folds. -/
def updDelta (now : Int) (st : IndexStats) (files : List (List RawRow)) : UpdateAcc :=
  (files.flatMap (deltaRows st.lastIndexedRowid)).foldl (updateStep now)
    { newestDate := st.newestReminder, lastRowid := st.lastIndexedRowid
      newCompleted := 0, newPending := 0, indexed := [] }

/-- The store the non-empty-delta branch of `updateIndex` writes. -/
def updStore (now : Int) (st : IndexStats) (store : Store) (files : List (List RawRow)) : Store :=
  { remindersTable := store.remindersTable ++ (updDelta now st files).indexed
    fuzzyDocs := store.fuzzyDocs ++ (updDelta now st files).indexed }

/-- The stats the non-empty-delta branch of `updateIndex` persists. -/
def updStats (now : Int) (st : IndexStats) (files : List (List RawRow)) : IndexStats :=
  { totalReminders := st.totalReminders + (updDelta now st files).indexed.length
    totalLists := st.totalLists
    completedReminders := st.completedReminders + (updDelta now st files).newCompleted
    pendingReminders := st.pendingReminders + (updDelta now st files).newPending
    indexedAt := now
    oldestReminder := st.oldestReminder
    newestReminder := (updDelta now st files).newestDate
    lastIndexedRowid := (updDelta now st files).lastRowid }

theorem updateIndexPure_nonempty (now : Int) (st : IndexStats) (store : Store)
    (files : List (List RawRow)) (h1 : st.lastIndexedRowid ≠ 0) (h2 : files.isEmpty = false)
    (h3 : (files.flatMap (deltaRows st.lastIndexedRowid)).isEmpty = false) :
    updateIndexPure now (some st) store files
      = .ok (some (updStore now st store files, updStats now st files)) := by
  have h1b : (st.lastIndexedRowid == 0) = false := by simpa using h1
  simp [updateIndexPure, updateIndexCore, updStore, updStats, updDelta, h1b, h2, h3]

/-- C1 (amended): full-then-incremental matches a fresh full rebuild
(comparing id-erased canonical record multisets) only under the alignment
conditions the code implicitly relies on: every pre-existing source row has
its per-file source id at or below the persisted high-water-mark, every
added row above it, the high-water-mark is non-zero, and the surviving scan
rows of the extended sources have pairwise-distinct dedup keys (so the
missing dedup pass of the incremental path cannot matter).  Without these
conditions the equivalence fails — the delta filter compares per-file
source ids against the global high-water-mark and applies no dedup (see
the counterexample). -/
theorem c1_incremental_equiv_amended
    (now : Int) (S added : List (List RawRow)) (store1 : Store) (st1 : IndexStats)
    (hLen : added.length = S.length)
    (hBuild : buildIndexPure now S = .ok (store1, st1))
    (hOld : ∀ f ∈ S, ∀ r ∈ f, r.pk ≤ st1.lastIndexedRowid)
    (hNew : ∀ a ∈ added, ∀ r ∈ a, st1.lastIndexedRowid < r.pk)
    (hHwm : st1.lastIndexedRowid ≠ 0)
    (hKeys : (((S.zipWith (· ++ ·) added).flatMap sqlSourceRows).map dedupKey).Nodup) :
    ∃ store2 st2 store3 st3,
      updateIndexPure now (some st1) store1 (S.zipWith (· ++ ·) added)
        = .ok (some (store2, st2))
      ∧ buildIndexPure now (S.zipWith (· ++ ·) added) = .ok (store3, st3)
      ∧ (store2.remindersTable.map eraseId).Perm (store3.remindersTable.map eraseId)
      ∧ (store2.fuzzyDocs.map eraseId).Perm (store3.fuzzyDocs.map eraseId) := by
  unfold buildIndexPure at hBuild
  cases hq : queryAllDatabasesPure S with
  | error e =>
    rw [hq] at hBuild
    exact absurd hBuild (by simp)
  | ok rows =>
  rw [hq] at hBuild
  have hB := Except.ok.inj hBuild
  obtain ⟨hrows, hSne⟩ := queryAll_ok_char S rows hq
  have hScanPerm := scan_zipWith_perm S added hLen
  have hKeys2 : ((S.flatMap sqlSourceRows ++ added.flatMap sqlSourceRows).map dedupKey).Nodup :=
    ((hScanPerm.map dedupKey).nodup_iff).mp hKeys
  have hNdS : ((S.flatMap sqlSourceRows).map dedupKey).Nodup := by
    rw [List.map_append] at hKeys2
    exact (List.nodup_append.mp hKeys2).1
  have hKeptS : keepFirstByKey (S.flatMap sqlSourceRows) [] = S.flatMap sqlSourceRows :=
    keepFirstByKey_of_nodup _ _ hNdS (fun r _ => rfl)
  have hStore1 : store1 = (buildIndexBody now rows).1 := (congrArg Prod.fst hB).symm
  have hFz1 : store1.fuzzyDocs = store1.remindersTable := by
    rw [hStore1]
    rfl
  have hErased1 : store1.remindersTable.map eraseId
      = ((S.flatMap sqlSourceRows).filter (fun r => jsTruthyStr r.title)).map (canonView now) := by
    rw [hStore1, build_erased, hrows, zipIds_map_snd, hKeptS]
  have hS'len : (S.zipWith (· ++ ·) added).length = S.length := by
    rw [List.length_zipWith, hLen, Nat.min_self]
  have hS'ne : (S.zipWith (· ++ ·) added) ≠ [] := by
    intro hc
    apply hSne
    have h0 := hS'len
    rw [hc] at h0
    exact List.length_eq_zero.mp h0.symm
  have hfe' : (S.zipWith (· ++ ·) added).isEmpty = false := by
    simpa [List.isEmpty_iff] using hS'ne
  have hKept' : keepFirstByKey ((S.zipWith (· ++ ·) added).flatMap sqlSourceRows) []
      = (S.zipWith (· ++ ·) added).flatMap sqlSourceRows :=
    keepFirstByKey_of_nodup _ _ hKeys (fun r _ => rfl)
  have hq' : queryAllDatabasesPure (S.zipWith (· ++ ·) added)
      = .ok (zipIds 1 ((S.zipWith (· ++ ·) added).flatMap sqlSourceRows)) := by
    unfold queryAllDatabasesPure
    rw [if_neg (by simp [hfe'])]
    rw [queryAll_foldl_flat, dedup_foldl_spec, hKept']
    simp
  have hBuild' : buildIndexPure now (S.zipWith (· ++ ·) added)
      = .ok (buildIndexBody now
          (zipIds 1 ((S.zipWith (· ++ ·) added).flatMap sqlSourceRows))) := by
    unfold buildIndexPure
    rw [hq']
  have hErased3 : ((buildIndexBody now
        (zipIds 1 ((S.zipWith (· ++ ·) added).flatMap sqlSourceRows))).1.remindersTable).map
        eraseId
      = (((S.zipWith (· ++ ·) added).flatMap sqlSourceRows).filter
          (fun r => jsTruthyStr r.title)).map (canonView now) := by
    rw [build_erased, zipIds_map_snd]
  have hFz3 : (buildIndexBody now
        (zipIds 1 ((S.zipWith (· ++ ·) added).flatMap sqlSourceRows))).1.fuzzyDocs
      = (buildIndexBody now
        (zipIds 1 ((S.zipWith (· ++ ·) added).flatMap sqlSourceRows))).1.remindersTable := rfl
  have hDeltaPerm := deltaScan_zipWith_perm S added st1.lastIndexedRowid hLen hOld hNew
  have hPermCore : (store1.remindersTable.map eraseId
        ++ ((((S.zipWith (· ++ ·) added).flatMap (deltaRows st1.lastIndexedRowid)).filter
          (fun r => jsTruthyStr r.title)).map (canonView now))).Perm
      ((((S.zipWith (· ++ ·) added).flatMap sqlSourceRows).filter
          (fun r => jsTruthyStr r.title)).map (canonView now)) := by
    rw [hErased1]
    refine List.Perm.trans (List.Perm.append_left _
      ((hDeltaPerm.filter (fun r => jsTruthyStr r.title)).map (canonView now))) ?_
    rw [← List.map_append, ← List.filter_append]
    exact ((hScanPerm.symm).filter (fun r => jsTruthyStr r.title)).map (canonView now)
  by_cases hd : ((S.zipWith (· ++ ·) added).flatMap (deltaRows st1.lastIndexedRowid)).isEmpty
      = true
  · have h1b : (st1.lastIndexedRowid == 0) = false := by simpa using hHwm
    have hup : updateIndexPure now (some st1) store1 (S.zipWith (· ++ ·) added)
        = .ok (some (store1, { st1 with indexedAt := now })) := by
      simp [updateIndexPure, updateIndexCore, h1b, hfe', hd]
    have hPermTbl : (store1.remindersTable.map eraseId).Perm
        (((buildIndexBody now
          (zipIds 1 ((S.zipWith (· ++ ·) added).flatMap sqlSourceRows))).1.remindersTable).map
          eraseId) := by
      rw [hErased3]
      have hDeltaNil := List.isEmpty_iff.mp hd
      have hPerm := hPermCore
      rw [hDeltaNil] at hPerm
      simpa using hPerm
    refine ⟨store1, { st1 with indexedAt := now },
      (buildIndexBody now (zipIds 1 ((S.zipWith (· ++ ·) added).flatMap sqlSourceRows))).1,
      (buildIndexBody now (zipIds 1 ((S.zipWith (· ++ ·) added).flatMap sqlSourceRows))).2,
      hup, by rw [hBuild'], hPermTbl, ?_⟩
    rw [hFz1, hFz3]
    exact hPermTbl
  · have hd' : ((S.zipWith (· ++ ·) added).flatMap (deltaRows st1.lastIndexedRowid)).isEmpty
        = false := by simpa using hd
    have hup := updateIndexPure_nonempty now st1 store1 (S.zipWith (· ++ ·) added)
      hHwm hfe' hd'
    have hAccIdx : (updDelta now st1 (S.zipWith (· ++ ·) added)).indexed
        = (((S.zipWith (· ++ ·) added).flatMap (deltaRows st1.lastIndexedRowid)).filter
            (fun r => jsTruthyStr r.title)).map (fun r => toIndexed now r.pk r) := by
      unfold updDelta
      rw [updateFold_indexed]
      simp
    have hU : ((updStore now st1 store1 (S.zipWith (· ++ ·) added)).remindersTable).map eraseId
        = store1.remindersTable.map eraseId
          ++ ((((S.zipWith (· ++ ·) added).flatMap (deltaRows st1.lastIndexedRowid)).filter
            (fun r => jsTruthyStr r.title)).map (canonView now)) := by
      show ((store1.remindersTable
          ++ (updDelta now st1 (S.zipWith (· ++ ·) added)).indexed).map eraseId) = _
      rw [List.map_append, hAccIdx, List.map_map]
      rw [show (eraseId ∘ fun r : RawRow => toIndexed now r.pk r) = canonView now from rfl]
    have hUf : ((updStore now st1 store1 (S.zipWith (· ++ ·) added)).fuzzyDocs).map eraseId
        = store1.remindersTable.map eraseId
          ++ ((((S.zipWith (· ++ ·) added).flatMap (deltaRows st1.lastIndexedRowid)).filter
            (fun r => jsTruthyStr r.title)).map (canonView now)) := by
      show ((store1.fuzzyDocs
          ++ (updDelta now st1 (S.zipWith (· ++ ·) added)).indexed).map eraseId) = _
      rw [hFz1, List.map_append, hAccIdx, List.map_map]
      rw [show (eraseId ∘ fun r : RawRow => toIndexed now r.pk r) = canonView now from rfl]
    refine ⟨updStore now st1 store1 (S.zipWith (· ++ ·) added),
      updStats now st1 (S.zipWith (· ++ ·) added),
      (buildIndexBody now (zipIds 1 ((S.zipWith (· ++ ·) added).flatMap sqlSourceRows))).1,
      (buildIndexBody now (zipIds 1 ((S.zipWith (· ++ ·) added).flatMap sqlSourceRows))).2,
      hup, by rw [hBuild'], ?_, ?_⟩
    · rw [hU, hErased3]
      exact hPermCore
    · rw [hUf, hFz3, hErased3]
      exact hPermCore

/-- First pre-existing row of the C1 scenario (source id 1 in file 1). -/
def c1A : RawRow :=
  { pk := 1, title := some "a", notes := none, completed := 0, flagged := 0, priority := 0,
    dueDate := none, creationDate := 100, lastModifiedDate := none, completionDate := none,
    listId := 1, listName := some "L", markedForDeletion := 0 }

/-- Second pre-existing row of the C1 scenario (source id 1 in file 2). -/
def c1B : RawRow := { c1A with title := some "b" }

/-- The newly added row of the C1 counterexample: its per-file source id 2
is not above the global high-water-mark 2 that full ingestion assigned
across both files. -/
def c1C : RawRow := { c1A with pk := 2, title := some "c", creationDate := 200 }

/-- The store the full rebuild over the original sources produces. -/
def c1store1 : Store :=
  { remindersTable := [toIndexed 0 1 c1A, toIndexed 0 2 c1B]
    fuzzyDocs := [toIndexed 0 1 c1A, toIndexed 0 2 c1B] }

/-- The stats the full rebuild over the original sources persists. -/
def c1st1 : IndexStats :=
  { totalReminders := 2, totalLists := 1, completedReminders := 0, pendingReminders := 2,
    indexedAt := 0, oldestReminder := some 978307300, newestReminder := 978307300,
    lastIndexedRowid := 2 }

/-- The store a fresh full rebuild over the extended sources produces. -/
def c1store3 : Store :=
  { remindersTable := [toIndexed 0 1 c1A, toIndexed 0 2 c1C, toIndexed 0 3 c1B]
    fuzzyDocs := [toIndexed 0 1 c1A, toIndexed 0 2 c1C, toIndexed 0 3 c1B] }

/-- The stats a fresh full rebuild over the extended sources persists. -/
def c1st3 : IndexStats :=
  { totalReminders := 3, totalLists := 1, completedReminders := 0, pendingReminders := 3,
    indexedAt := 0, oldestReminder := some 978307300, newestReminder := 978307400,
    lastIndexedRowid := 3 }

/-- Counterexample to C1 as stated: sources `[[A],[B]]` are extended by one
record `C` with per-file source id 2.  The full rebuild assigned global ids
1 and 2 across both files, so the high-water-mark is 2 and the incremental
delta query `source id > 2` finds nothing: the update refreshes only the
stats timestamp, and the resulting record set misses `C`, while a fresh
full rebuild indexes it. -/
theorem c1_counterexample :
    buildIndexPure 0 [[c1A], [c1B]] = .ok (c1store1, c1st1)
    ∧ updateIndexPure 0 (some c1st1) c1store1 [[c1A, c1C], [c1B]]
        = .ok (some (c1store1, { c1st1 with indexedAt := 0 }))
    ∧ buildIndexPure 0 [[c1A, c1C], [c1B]] = .ok (c1store3, c1st3)
    ∧ canonView 0 c1C ∈ c1store3.remindersTable.map eraseId
    ∧ canonView 0 c1C ∉ c1store1.remindersTable.map eraseId := by
  decide

/-- The added row of the C1 witness: source id 5, above the high-water-mark
2. -/
def c1wC : RawRow := { c1A with pk := 5, title := some "c", creationDate := 200 }

/-- Witness for C1 (amended): at the concrete sources `[[A],[B]]` extended
by `[[C],[]]` with the source id of `C` above the high-water-mark, the
incremental update and the fresh full rebuild agree up to permutation of
the id-erased record lists. -/
theorem c1_incremental_equiv_amended_witness :
    ∃ store2 st2 store3 st3,
      updateIndexPure 0 (some c1st1) c1store1
          ([[c1A], [c1B]].zipWith (· ++ ·) [[c1wC], []])
        = .ok (some (store2, st2))
      ∧ buildIndexPure 0 ([[c1A], [c1B]].zipWith (· ++ ·) [[c1wC], []]) = .ok (store3, st3)
      ∧ (store2.remindersTable.map eraseId).Perm (store3.remindersTable.map eraseId)
      ∧ (store2.fuzzyDocs.map eraseId).Perm (store3.fuzzyDocs.map eraseId) :=
  c1_incremental_equiv_amended 0 [[c1A], [c1B]] [[c1wC], []] c1store1 c1st1
    (by decide) (by decide) (by decide) (by decide) (by decide) (by decide)

end Reminders
